import Mathlib

/-!
Verification of the PIXID invoice corrector core (parser / detector /
calculator / fixer) against its natural-language specification.

The Python source is shallowly embedded:
* Python `float` and `Decimal` values are modelled as `ℚ` (exact rational
  arithmetic; the spec's numeric laws are stated at this level).
* Python strings are Lean `String`s; `str.lower()` is modelled by
  character-wise `Char.toLower` (faithful on the ASCII letters the
  business-rule markers consist of).
* `dateutil.parser.parse` is an external library; it is modelled by an
  arbitrary function `pd : String → Option ℤ` (day ordinal, `none` when
  parsing raises), universally quantified in the theorems.
* Python `dict` is an association list with insert-or-overwrite-in-place
  semantics, matching insertion-order iteration.
-/

set_option autoImplicit false

attribute [local semireducible] Rat.mul Rat.inv Rat.add Rat.sub

namespace Pixid

/-- `chPre needle hay`: `needle` is a prefix of `hay` (character lists). -/
def chPre : List Char → List Char → Bool
  | [], _ => true
  | _ :: _, [] => false
  | a :: as, b :: bs => a = b && chPre as bs

/-- `chSub needle hay`: `needle` occurs as a contiguous substring of `hay`.
Models Python's `needle in hay` on strings. -/
def chSub (needle : List Char) : List Char → Bool
  | [] => needle.isEmpty
  | b :: bs => chPre needle (b :: bs) || chSub needle bs

/-- Python `needle in hay` for strings. -/
def strIn (needle hay : String) : Bool :=
  chSub needle.toList hay.toList

/-- Python `s.lower()`, modelled character-wise (ASCII-faithful; the
rule markers `heure`, `hs`, `rtt`, `mois`, `panier`, `transport` are ASCII
or already lowercase). -/
def lowerStr (s : String) : String :=
  ⟨s.toList.map Char.toLower⟩

/-- `Decimal.quantize(Decimal('0.01'), rounding=ROUND_HALF_UP)`: round to
2 decimal places, ties away from zero. -/
def roundHalfUp2 (x : ℚ) : ℚ :=
  if 0 ≤ x then (⌊x * 100 + 1/2⌋ : ℚ) / 100
  else -((⌊-x * 100 + 1/2⌋ : ℚ) / 100)

/-- Python 3 `round(x)` to an integer: nearest, ties to even. -/
def pyRound (x : ℚ) : ℤ :=
  if x - ⌊x⌋ < 1/2 then ⌊x⌋
  else if x - ⌊x⌋ > 1/2 then ⌊x⌋ + 1
  else if ⌊x⌋ % 2 = 0 then ⌊x⌋ else ⌊x⌋ + 1

/-- A parsed invoice line as consumed by the calculator
(`parser._parse_single_line` output with a present description). -/
structure LineItem where
  description : String
  quantity : ℚ
  unit : String
  unit_price : ℚ
  total : ℚ
deriving DecidableEq, Repr

/-- The normalized invoice record (`parser.parse` output) restricted to the
fields the calculator and detector read. `period_start`/`period_end` keep
their raw text (`none` models Python `None`): the collapse test in the
calculator is Python `==` on these raw values. -/
structure InvoiceData where
  period_start : Option String
  period_end : Option String
  raf_hours : ℚ
  invoice_hours : ℚ
  total_charges : ℚ
  vat_rate : ℚ
  raf_details : List (String × ℚ)
  lines : List LineItem
deriving DecidableEq, Repr

/-- One per-line adjustment (`calculator._calculate_line_adjustment` output). -/
structure Adjustment where
  old_quantity : ℚ
  old_amount : ℚ
  unit_price : ℚ
  action : String
  new_quantity : ℚ
  new_amount : ℚ
deriving DecidableEq, Repr

/-- The adjustment plan (`calculator.calculate_adjustments` output). `lines`
is the description-keyed dict, in insertion order. -/
structure AdjustmentSet where
  target_period_start : Option String
  target_period_end : Option String
  target_hours : ℚ
  ratio : ℚ
  lines : List (String × Adjustment)
  new_total_charges : ℚ
  new_total_tax : ℚ
  new_total_amount : ℚ
deriving DecidableEq, Repr

/-- `AmountCalculator.__init__`: `self.vat_rate = Decimal(str(vat_rate))/100`. -/
def vatRate (data : InvoiceData) : ℚ := data.vat_rate / 100

/-- `calculator._calculate_ratio`. -/
def calculate_ratio (data : InvoiceData) : ℚ :=
  if data.invoice_hours > 0 then data.raf_hours / data.invoice_hours else 1

/-- `calculator._calculate_days_worked`: parse both period endpoints
(any failure, including Python `None`, is caught and yields 1), return 1 on
equal dates, else `min(days, 5)` with `days = (end - start).days + 1`. -/
def calculate_days_worked (pd : String → Option ℤ) (ps pe : Option String) : ℤ :=
  match ps.bind pd, pe.bind pd with
  | some s, some e => if s = e then 1 else min (e - s + 1) 5
  | _, _ => 1

/-- `calculator._calculate_line_amount`: `round_half_up(quantity * unit_price, 2)`. -/
def calculate_line_amount (quantity unit_price : ℚ) : ℚ :=
  roundHalfUp2 (quantity * unit_price)

/-- The guard `'heure' in str(quantity).lower()` of `calculator._round_quantity`.
`str()` of a Python float consists of digits, `-`, `.`, `e`, `+` (or
`inf`/`nan`), so the letter sequence `heure` never occurs: the guard is
`False` for every numeric quantity the calculator passes in. -/
def quantityStrHasHeure (_ : ℚ) : Bool := false

/-- `calculator._round_quantity`: the 2-decimal branch is dead (see
`quantityStrHasHeure`), so every quantity is rounded to the nearest integer
by Python `round`. -/
def round_quantity (q : ℚ) : ℚ :=
  if quantityStrHasHeure q then roundHalfUp2 q else (pyRound q : ℚ)

/-- Rule-1 test (lowercased description): `'heure' in d and 'supplémentaire' not in d`. -/
def ruleHours (d : String) : Bool := strIn "heure" d && !(strIn "supplémentaire" d)

/-- Rule-2 test: `'supplémentaire' in d or 'hs' in d`. -/
def ruleOvertime (d : String) : Bool := strIn "supplémentaire" d || strIn "hs" d

/-- Rule-3 test: `'rtt' in d`. -/
def ruleRtt (d : String) : Bool := strIn "rtt" d

/-- Rule-4 test: `'13' in d and 'mois' in d`. -/
def rule13 (d : String) : Bool := strIn "13" d && strIn "mois" d

/-- Rule-5 test: `'panier' in d or 'transport' in d`. -/
def ruleAllowance (d : String) : Bool := strIn "panier" d || strIn "transport" d

/-- `calculator._calculate_line_adjustment`. -/
def line_adjustment (pd : String → Option ℤ) (data : InvoiceData) (ratio : ℚ)
    (line : LineItem) : Adjustment :=
  let d := lowerStr line.description
  let ratioAdj : Adjustment :=
    { old_quantity := line.quantity, old_amount := line.total,
      unit_price := line.unit_price, action := "adjust",
      new_quantity := round_quantity (line.quantity * ratio),
      new_amount := calculate_line_amount (round_quantity (line.quantity * ratio)) line.unit_price }
  let removeAdj : Adjustment :=
    { old_quantity := line.quantity, old_amount := line.total,
      unit_price := line.unit_price, action := "remove",
      new_quantity := 0, new_amount := 0 }
  if ruleHours d then ratioAdj
  else if ruleOvertime d then
    if data.period_start = data.period_end then removeAdj else ratioAdj
  else if ruleRtt d then
    if data.period_start = data.period_end then removeAdj else ratioAdj
  else if rule13 d then ratioAdj
  else if ruleAllowance d then
    let days : ℚ := (calculate_days_worked pd data.period_start data.period_end : ℚ)
    { old_quantity := line.quantity, old_amount := line.total,
      unit_price := line.unit_price, action := "adjust",
      new_quantity := days,
      new_amount := calculate_line_amount days line.unit_price }
  else ratioAdj

/-- Python-dict assignment `d[k] = v`: overwrite in place when the key
exists, else append (insertion order preserved). -/
def dictInsert (l : List (String × Adjustment)) (k : String) (v : Adjustment) :
    List (String × Adjustment) :=
  if l.any fun p => p.1 == k then
    l.map fun p => if p.1 = k then (k, v) else p
  else l ++ [(k, v)]

/-- The per-line loop of `calculator.calculate_adjustments`, accumulating the
description-keyed dict and `new_total_charges`. -/
def linesLoop (pd : String → Option ℤ) (data : InvoiceData) (ratio : ℚ) :
    List LineItem → List (String × Adjustment) → ℚ →
    List (String × Adjustment) × ℚ
  | [], dict, total => (dict, total)
  | l :: rest, dict, total =>
    let a := line_adjustment pd data ratio l
    linesLoop pd data ratio rest (dictInsert dict l.description a) (total + a.new_amount)

/-- `sum` of `new_amount` over dict entries, in iteration order. -/
def sumAmounts (l : List (String × Adjustment)) : ℚ :=
  l.foldl (fun acc p => acc + p.2.new_amount) 0

/-- The RAF-total estimate of `calculator._adjust_cent_difference`: each
hours-type RAF quantity times the average hourly rate
`total_charges / invoice_hours` (skipped when `invoice_hours` is 0). -/
def rafTotal (data : InvoiceData) : ℚ :=
  data.raf_details.foldl
    (fun acc p =>
      if strIn "heure" (lowerStr p.1) then
        if data.invoice_hours > 0 then
          acc + p.2 * (data.total_charges / data.invoice_hours)
        else acc
      else acc)
    0

/-- One step of the smallest-nonzero-line search:
`if adj.new_amount > 0 and (smallest is None or adj.new_amount < smallest)`. -/
def smallestStep (acc : Option (String × ℚ)) (p : String × Adjustment) :
    Option (String × ℚ) :=
  if p.2.new_amount > 0 then
    match acc with
    | none => some (p.1, p.2.new_amount)
    | some (k, a) =>
      if p.2.new_amount < a then some (p.1, p.2.new_amount) else some (k, a)
  else acc

/-- The smallest-positive-amount search loop of `_adjust_cent_difference`. -/
def smallestPosAux : Option (String × ℚ) → List (String × Adjustment) →
    Option (String × ℚ)
  | acc, [] => acc
  | acc, p :: rest => smallestPosAux (smallestStep acc p) rest

/-- `(smallest_line, smallest_amount)` after the search loop. -/
def smallestPos (l : List (String × Adjustment)) : Option (String × ℚ) :=
  smallestPosAux none l

/-- `calculator._adjust_cent_difference`. The dict-entry mutation is modelled
as a map over the association list (dict keys are unique, so exactly the
selected entry changes). -/
def adjust_cent_difference (data : InvoiceData) (A : AdjustmentSet) : AdjustmentSet :=
  let raf := rafTotal data
  let d := |raf - A.new_total_charges|
  if 0 < d ∧ d < 1 then
    match smallestPos A.lines with
    | some (k, _) =>
      let newLines := A.lines.map fun p =>
        if p.1 = k then
          (p.1, { p.2 with new_amount :=
                    p.2.new_amount + (if A.new_total_charges < raf then d else -d) })
        else p
      let ntc := sumAmounts newLines
      { A with lines := newLines,
               new_total_charges := ntc,
               new_total_tax := roundHalfUp2 (ntc * vatRate data),
               new_total_amount := ntc + roundHalfUp2 (ntc * vatRate data) }
    | none => A
  else A

/-- The single-line mutation performed by `_adjust_cent_difference` when a
smallest positive line `k` exists: add the difference to that entry when the
RAF estimate exceeds the computed total, else subtract it (named here to
state the reconciliation equations compactly). -/
def centUpd (data : InvoiceData) (A : AdjustmentSet) (k : String) :
    List (String × Adjustment) :=
  A.lines.map fun p =>
    if p.1 = k then
      (p.1, { p.2 with new_amount :=
        p.2.new_amount +
          (if A.new_total_charges < rafTotal data then
            |rafTotal data - A.new_total_charges|
          else -|rafTotal data - A.new_total_charges|) })
    else p

/-- `calculator.calculate_adjustments` (the final float conversions are
identities in the rational model). -/
def calculate_adjustments (pd : String → Option ℤ) (data : InvoiceData) : AdjustmentSet :=
  let ratio := calculate_ratio data
  let s := linesLoop pd data ratio data.lines [] 0
  let tax := roundHalfUp2 (s.2 * vatRate data)
  adjust_cent_difference data
    { target_period_start := data.period_start,
      target_period_end := data.period_end,
      target_hours := data.raf_hours,
      ratio := ratio,
      lines := s.1,
      new_total_charges := s.2,
      new_total_tax := tax,
      new_total_amount := s.2 + tax }

/-! ## Inconsistency detector (`detector.py`) -/

/-- Result of `InconsistencyDetector.detect`, restricted to the inconsistency
flag and the `type` tag (`message` and `details` are display data no claim
reads). -/
structure DetectResult where
  has_inconsistency : Bool
  type : Option String
deriving DecidableEq, Repr

/-- `detector.InconsistencyDetector.detect` as a function of the outcomes of
its four checks. The check bodies (`_check_week_overlap` onward) are truncated
in the source; `detect` only branches on their boolean outcome, so those
outcomes are inputs here. The four updates are applied in source order. -/
def detect (hoursMismatch weekOverlap amountMismatch periodIssue : Bool) :
    DetectResult :=
  let r0 : DetectResult := { has_inconsistency := false, type := none }
  let r1 := if hoursMismatch then
      { r0 with has_inconsistency := true, type := some "hours_mismatch" }
    else r0
  let r2 := if weekOverlap then
      { r1 with has_inconsistency := true, type := some "week_overlap" }
    else r1
  let r3 := if amountMismatch then
      { r2 with has_inconsistency := true,
                type := match r2.type with
                        | some _ => some "multiple"
                        | none => some "amount_mismatch" }
    else r2
  if periodIssue then { r3 with has_inconsistency := true } else r3

/-! ## Extractor-derived invoiced hours (`parser.py`) -/

/-- A parsed invoice line (`parser._parse_single_line` output): `description`
and `unit` can be Python `None` (`none` also models empty text, which the
source treats as absent via truthiness). -/
structure ParsedLine where
  ltype : Option String
  description : Option String
  quantity : ℚ
  unit : Option String
  unit_price : ℚ
  total : ℚ
deriving DecidableEq, Repr

/-- `parser._calculate_invoice_hours`: sum line quantities where the
description contains `heure` (and is truthy) and the unit is `HUR`/`hur`. -/
def calculate_invoice_hours (lines : List ParsedLine) : ℚ :=
  lines.foldl
    (fun acc l =>
      match l.description with
      | some d =>
        if strIn "heure" (lowerStr d) then
          if l.unit = some "HUR" ∨ l.unit = some "hur" then acc + l.quantity
          else acc
        else acc
      | none => acc)
    0

/-! ## Document fixer (`fixer.py`) -/

/-- `f"{x:.2f}"` formatting of a currency value, modelled by its rendered
numeric value (2 decimals, nearest-even ties as in float formatting). -/
def fmt2 (x : ℚ) : ℚ := (pyRound (x * 100) : ℚ) / 100

/-- Text rendering of `f"{x:.2f}"` (the digit string itself is irrelevant to
the claims; the rendered value identifies it). -/
def fmt2str (x : ℚ) : String := toString (fmt2 x)

/-- A `Line` element of the XML tree as `_fix_invoice_lines` touches it:
description text, and quantity / charge-total text contents modelled by their
numeric values (`none` = child element missing). -/
structure LineElem where
  description : Option String
  itemQuantity : Option ℚ
  chargeTotal : Option ℚ
deriving DecidableEq, Repr

/-- The adjustment lookup of `fixer._fix_invoice_lines`: first entry whose key
contains the line description or is contained in it
(`desc_key in description or description in desc_key`). -/
def findAdj (adjLines : List (String × Adjustment)) (d : String) : Option Adjustment :=
  match adjLines with
  | [] => none
  | (k, a) :: rest => if strIn k d || strIn d k then some a else findAdj rest d

/-- `fixer._update_line_values`: overwrite quantity and charge-total text and
rewrite a `... au ...` period range in the description. -/
def update_line_values (A : AdjustmentSet) (a : Adjustment) (e : LineElem) : LineElem :=
  let e1 : LineElem :=
    { e with itemQuantity := e.itemQuantity.map fun _ => a.new_quantity,
             chargeTotal := e.chargeTotal.map fun _ => fmt2 a.new_amount }
  match e1.description with
  | some t =>
    if strIn " au " t then
      let pre := (t.splitOn " au ").headD ""
      let ps := A.target_period_start.getD "None"
      let pe := A.target_period_end.getD "None"
      if A.target_period_start = A.target_period_end then
        { e1 with description := some (pre ++ " du " ++ ps) }
      else
        { e1 with description := some (pre ++ " du " ++ ps ++ " au " ++ pe) }
    else e1
  | none => e1

/-- The per-line-element decision of `fixer._fix_invoice_lines`: `none` means
the element is excised from its parent. -/
def fixLineElem (A : AdjustmentSet) (e : LineElem) : Option LineElem :=
  match e.description with
  | some d =>
    if d ≠ "" then
      match findAdj A.lines d with
      | some a =>
        if a.action = "remove" then none else some (update_line_values A a e)
      | none => some e
    else some e
  | none => some e

/-- `fixer._fix_invoice_lines` over the document's line elements. -/
def fix_invoice_lines (A : AdjustmentSet) (lines : List LineElem) : List LineElem :=
  lines.filterMap (fixLineElem A)

/-- The invoice `Header` as `_fix_header_totals` touches it: the three total
elements (text modelled by numeric value, `none` = element missing) and the
`Description` annotation elements with their `owner` attribute and text. -/
structure HeaderElem where
  totalCharges : Option ℚ
  totalTax : Option ℚ
  totalAmount : Option ℚ
  descriptions : List (String × Option String)
deriving DecidableEq, Repr

/-- The fallback loop of `_fix_header_totals`: write `target_hours` into the
first `Description` whose `owner` is `NbHeuresFacturees`, then `break`. -/
def setNbHeures (target : ℚ) : List (String × Option String) →
    List (String × Option String)
  | [] => []
  | (o, t) :: rest =>
    if o = "NbHeuresFacturees" then (o, some (fmt2str target)) :: rest
    else (o, t) :: setNbHeures target rest

/-- `fixer._fix_header_totals`. The first lookup
`header.find('.//*[@owner="NbHeuresFacturees"]')` matches any element with
that owner attribute (the annotation elements are the `descriptions`); when it
succeeds the found element is never written — only the fallback branch, which
runs when the first lookup found nothing, writes. -/
def fix_header_totals (A : AdjustmentSet) (h : HeaderElem) : HeaderElem :=
  let h1 : HeaderElem :=
    { h with totalCharges := h.totalCharges.map fun _ => fmt2 A.new_total_charges,
             totalTax := h.totalTax.map fun _ => fmt2 A.new_total_tax,
             totalAmount := h.totalAmount.map fun _ => fmt2 A.new_total_amount }
  if h1.descriptions.any fun p => p.1 == "NbHeuresFacturees" then h1
  else { h1 with descriptions := setNbHeures A.target_hours h1.descriptions }

/-! ## Extraction pipeline (`parser.py`), for the error-propagation claim

Every fallback lookup in `parser.py` is of the form
`find('.//*[local-name()="X"]')`; `local-name()` is not a valid ElementPath
predicate, so lxml raises `SyntaxError: invalid predicate` whenever the
fallback runs — that is, whenever the first, namespace-qualified lookup
finds nothing. An element behind such a guarded lookup therefore has three
observable states, modelled by `Elem`:
  * `absent`  — the first lookup misses; touching the element raises
    `SyntaxError` (it never "defaults");
  * `blank`   — the element is found but its text is falsy (`None`/empty);
    the source's `elem is not None and elem.text` guard fails and the
    field keeps its default;
  * `text a`  — the element is found with truthy text content `a`.
Consequently `_find_invoice`'s `ValueError("Aucune facture...")` is dead
code (the fallback raises first), and `_detect_timecards_position` raises
unless a header-anchored timecard is found, making the line-anchored branch
unreachable. -/

/-- Numeric text content: parseable (`num`) or `float()`-rejected (`bad`). -/
inductive NumT where
  | num (q : ℚ)
  | bad
deriving DecidableEq, Repr

/-- Python `float(text)`: one of the two exception sources inside
extraction. -/
def floatOf : NumT → Except String ℚ
  | .num q => .ok q
  | .bad => .error "ValueError: could not convert string to float"

/-- The state of an element reached through a fallback-guarded lookup. -/
inductive Elem (α : Type) where
  | absent
  | blank
  | text (a : α)
deriving DecidableEq, Repr

/-- The `SyntaxError` lxml raises when compiling a `local-name()`
fallback path. -/
def synErr {α : Type} : Except String α :=
  .error "SyntaxError: invalid predicate"

/-- A fallback-guarded lookup followed by the `elem is not None and
elem.text` truthiness test: a missing element triggers the fallback and
raises; a found element yields its truthy text, if any. -/
def elemReq {α : Type} : Elem α → Except String (Option α)
  | .absent => synErr
  | .blank => .ok none
  | .text a => .ok (some a)

/-- Guarded lookup of a numeric element followed by
`float(elem.text)` when the text is truthy, else the field's default. -/
def floatField (e : Elem NumT) (d : ℚ) : Except String ℚ :=
  match e with
  | .absent => synErr
  | .blank => pure d
  | .text t => floatOf t

/-- A `TimeInterval` element: `type` attribute (attribute reads never
raise), and the guarded `Duration` and `Quantity` children. -/
structure Interval where
  itype : Option String
  duration : Elem NumT
  quantity : Elem NumT
deriving DecidableEq, Repr

/-- The `Duration`-else-`Quantity`-else-0 value of a `TimeInterval`. Both
lookups run unconditionally (source lines 170–176) before the value is
chosen, so a missing `Duration` OR a missing `Quantity` raises even when the
other is present. -/
def intervalValue (iv : Interval) : Except String ℚ :=
  match iv.duration, iv.quantity with
  | .absent, _ => synErr
  | _, .absent => synErr
  | .text t, _ => floatOf t
  | .blank, .text t => floatOf t
  | .blank, .blank => pure 0

/-- A `TimeCard` element: guarded period-date children, and its
`TimeInterval` list (an empty `findall` triggers the fallback). -/
structure TimeCard where
  periodStart : Elem String
  periodEnd : Elem String
  intervals : List Interval
deriving DecidableEq, Repr

/-- The `Header` element as the extractor reads it: four guarded numeric
children and the `Description` list (empty `findall` triggers the
fallback). -/
structure HeaderX where
  totalCharges : Elem NumT
  totalTax : Elem NumT
  totalAmount : Elem NumT
  taxPercent : Elem NumT
  descriptions : List (String × Option String)
deriving DecidableEq, Repr

/-- A `Line` element as the extractor reads it; all five children are
guarded. `itemQuantity` carries the text and the `uom` attribute. -/
structure LineX where
  reasonCode : Elem String
  description : Elem String
  itemQuantity : Elem (NumT × Option String)
  priceAmount : Elem NumT
  chargeTotal : Elem NumT
deriving DecidableEq, Repr

/-- The `Invoice` element. `headerTimecards`/`lineTimecards` are what the
namespace-qualified lookups anchor under `Header` resp. `Line`
(`lineTimecards` is kept for fidelity although the line-anchored branch of
position detection is unreachable: the header fallback raises first). -/
structure InvoiceX where
  docId : Elem String
  headerTimecards : List TimeCard
  lineTimecards : List TimeCard
  header : Option HeaderX
  lines : List LineX
deriving DecidableEq, Repr

/-- A whole document: `invoice = none` models a tree where the first
`.//Invoice` lookup finds nothing — the fallback then raises `SyntaxError`,
so `_find_invoice`'s own `ValueError` is never reached. -/
structure Doc where
  invoice : Option InvoiceX
deriving DecidableEq, Repr

/-- `parser._get_invoice_id`: guarded lookup of `DocumentIds//Id`; blank
text falls back to `UNKNOWN` (`.strip()` modelled as the identity). -/
def get_invoice_id (e : Elem String) : Except String String :=
  match e with
  | .absent => synErr
  | .blank => pure "UNKNOWN"
  | .text s => pure s

/-- The `ItemQuantity` step of `_parse_single_line`: guarded lookup, then
`float(text)` and the `uom` attribute (default `PCE`) when the text is
truthy, else the defaults `0` / `None`. -/
def qtyField (e : Elem (NumT × Option String)) :
    Except String (ℚ × Option String) :=
  match e with
  | .absent => synErr
  | .blank => pure (0, none)
  | .text p => do
    let v ← floatOf p.1
    pure (v, some (p.2.getD "PCE"))

/-- `parser._detect_timecards_position`: when no header-anchored timecard is
found the fallback raises, so the `line` and `None` results are dead code. -/
def detect_timecards_position (inv : InvoiceX) : Except String (Option String) :=
  if inv.headerTimecards ≠ [] then Except.ok (some "header") else synErr

/-- Timecard-extraction accumulator (`parser._parse_timecards` result). -/
structure TCAcc where
  period_start : Option String
  period_end : Option String
  raf_hours : ℚ
  raf_details : List (String × ℚ)
deriving DecidableEq, Repr

/-- `raf_details` accumulation: `details.setdefault(t, 0); details[t] += v`. -/
def dictAdd (l : List (String × ℚ)) (k : String) (v : ℚ) : List (String × ℚ) :=
  if l.any fun p => p.1 == k then
    l.map fun p => if p.1 = k then (p.1, p.2 + v) else p
  else l ++ [(k, v)]

/-- Per-interval step of `parser._parse_timecards`. -/
def parseInterval (acc : TCAcc) (iv : Interval) : Except String TCAcc := do
  let itype := iv.itype.getD "Unknown"
  let value ← intervalValue iv
  pure { acc with
    raf_details := dictAdd acc.raf_details itype value,
    raf_hours := if strIn "heure" (lowerStr itype) then acc.raf_hours + value
                 else acc.raf_hours }

/-- Per-timecard step of `parser._parse_timecards`: guarded period-date
lookups (truthy text overwrites the accumulator), then the guarded
`TimeInterval` `findall` and the interval loop. -/
def parseTimecard (acc : TCAcc) (tc : TimeCard) : Except String TCAcc := do
  let ps ← elemReq tc.periodStart
  let pe ← elemReq tc.periodEnd
  let acc1 : TCAcc :=
    { acc with
      period_start := match ps with
                      | some s => some s
                      | none => acc.period_start,
      period_end := match pe with
                    | some s => some s
                    | none => acc.period_end }
  if tc.intervals = [] then synErr
  else tc.intervals.foldlM parseInterval acc1

/-- `parser._parse_timecards`. -/
def parse_timecards (tcs : List TimeCard) : Except String TCAcc :=
  tcs.foldlM parseTimecard ⟨none, none, 0, []⟩

/-- Header-extraction result (`parser._parse_header` merged over the initial
defaults `0, 0, 0, 20`). -/
structure HAcc where
  total_charges : ℚ
  total_tax : ℚ
  total_amount : ℚ
  vat_rate : ℚ
  deb_per : Option String
  fin_per : Option String
deriving DecidableEq, Repr

/-- `parser._parse_header`: four guarded numeric fields, then the guarded
`Description` `findall` and the `DEB_PER`/`FIN_PER` scan. -/
def parse_header (h : HeaderX) : Except String HAcc := do
  let tc ← floatField h.totalCharges 0
  let tt ← floatField h.totalTax 0
  let ta ← floatField h.totalAmount 0
  let vr ← floatField h.taxPercent 20
  if h.descriptions = [] then synErr
  else
    let dp := h.descriptions.foldl
      (fun acc p =>
        if p.1 = "DEB_PER" ∧ p.2.isSome then (p.2, acc.2)
        else if p.1 = "FIN_PER" ∧ p.2.isSome then (acc.1, p.2)
        else acc)
      ((none : Option String), (none : Option String))
    pure { total_charges := tc, total_tax := tt, total_amount := ta,
           vat_rate := vr, deb_per := dp.1, fin_per := dp.2 }

/-- `parser._parse_single_line`: five guarded lookups in source order. -/
def parse_single_line (lx : LineX) : Except String ParsedLine := do
  let rc ← elemReq lx.reasonCode
  let desc ← elemReq lx.description
  let qu ← qtyField lx.itemQuantity
  let price ← floatField lx.priceAmount 0
  let tot ← floatField lx.chargeTotal 0
  pure { ltype := rc, description := desc, quantity := qu.1, unit := qu.2,
         unit_price := price, total := tot }

/-- `parser._parse_lines`: an empty `Line` `findall` triggers the fallback. -/
def parse_lines (lxs : List LineX) : Except String (List ParsedLine) :=
  if lxs = [] then synErr
  else lxs.foldlM (fun acc lx => do
    let pl ← parse_single_line lx
    pure (acc ++ [pl])) []

/-- The normalized record assembled by `parser.parse` (the `tree` and
`namespaces` back-references are owned by the XML layer and omitted). -/
structure ParsedData where
  invoice_id : String
  timecards_position : Option String
  period_start : Option String
  period_end : Option String
  raf_hours : ℚ
  raf_details : List (String × ℚ)
  invoice_hours : ℚ
  lines : List ParsedLine
  total_charges : ℚ
  total_tax : ℚ
  total_amount : ℚ
  vat_rate : ℚ
  deb_per : Option String
  fin_per : Option String
deriving DecidableEq, Repr

/-- `parser.parse` together with `parser._find_invoice`, raising exactly
where the source raises: the invoice lookup and every guarded lookup raise
`SyntaxError` on a miss, `float()` raises `ValueError` on malformed text.
Evaluation order follows the source: invoice id and timecard position are
computed while building the record dict, before timecards, header and
lines. The unguarded `find('.//Header')` (source line 68) makes a missing
header harmless. -/
def parse (doc : Doc) : Except String ParsedData := do
  let inv ← match doc.invoice with
    | some inv => pure inv
    | none => synErr
  let invoice_id ← get_invoice_id inv.docId
  let pos ← detect_timecards_position inv
  let tcs : List TimeCard :=
    if pos = some "header" then inv.headerTimecards
    else if pos = some "line" then inv.lineTimecards
    else []
  let tcd ← parse_timecards tcs
  let hd ← match inv.header with
    | some h => parse_header h
    | none => pure ⟨0, 0, 0, 20, none, none⟩
  let pls ← parse_lines inv.lines
  pure { invoice_id := invoice_id,
         timecards_position := pos,
         period_start := tcd.period_start,
         period_end := tcd.period_end,
         raf_hours := tcd.raf_hours,
         raf_details := tcd.raf_details,
         invoice_hours := calculate_invoice_hours pls,
         lines := pls,
         total_charges := hd.total_charges,
         total_tax := hd.total_tax,
         total_amount := hd.total_amount,
         vat_rate := hd.vat_rate,
         deb_per := hd.deb_per,
         fin_per := hd.fin_per }

/-- The guarded lookup finds the element (no `SyntaxError`). -/
def elemFound {α : Type} : Elem α → Bool
  | .absent => false
  | .blank => true
  | .text _ => true

/-- The guarded numeric element is found and, when its text is truthy,
`float()` accepts it. -/
def goodElemNum : Elem NumT → Bool
  | .absent => false
  | .blank => true
  | .text (.num _) => true
  | .text .bad => false

/-- `ItemQuantity` is found and its truthy text is numeric. -/
def goodQtyElem : Elem (NumT × Option String) → Bool
  | .absent => false
  | .blank => true
  | .text (.num _, _) => true
  | .text (.bad, _) => false

/-- Both guarded children of an interval are found with well-formed text. -/
def goodInterval (iv : Interval) : Bool :=
  goodElemNum iv.duration && goodElemNum iv.quantity

/-- All guarded lookups of a timecard succeed: period dates found, at least
one interval, every interval well formed. -/
def goodTimeCard (tc : TimeCard) : Bool :=
  elemFound tc.periodStart && elemFound tc.periodEnd &&
  !tc.intervals.isEmpty && tc.intervals.all goodInterval

/-- All guarded lookups of the header succeed. -/
def goodHeader (h : HeaderX) : Bool :=
  goodElemNum h.totalCharges && goodElemNum h.totalTax &&
  goodElemNum h.totalAmount && goodElemNum h.taxPercent &&
  !h.descriptions.isEmpty

/-- All guarded lookups of a line succeed with well-formed numeric text. -/
def goodLine (lx : LineX) : Bool :=
  elemFound lx.reasonCode && elemFound lx.description &&
  goodQtyElem lx.itemQuantity && goodElemNum lx.priceAmount &&
  goodElemNum lx.chargeTotal

/-- Every lookup extraction performs on the invoice succeeds: document id
found, a header-anchored timecard exists, all timecards and lines well
formed, at least one line, and the header (when found) well formed. -/
def goodInvoice (inv : InvoiceX) : Bool :=
  elemFound inv.docId && !inv.headerTimecards.isEmpty &&
  inv.headerTimecards.all goodTimeCard &&
  (match inv.header with
   | some h => goodHeader h
   | none => true) &&
  !inv.lines.isEmpty && inv.lines.all goodLine

/-! ## Rule-table positions (first matching rule wins, in source order) -/

/-- The line is dispatched by rule 1 (regular hours). -/
def ruleHoursPos (d : String) : Prop := ruleHours d = true

/-- The line is dispatched by rule 2 (overtime). -/
def overtimeRulePos (d : String) : Prop :=
  ruleHours d = false ∧ ruleOvertime d = true

/-- The line is dispatched by rule 3 (RTT). -/
def rttRulePos (d : String) : Prop :=
  ruleHours d = false ∧ ruleOvertime d = false ∧ ruleRtt d = true

/-- The line is dispatched by rule 4 (13th-month bonus). -/
def rule13Pos (d : String) : Prop :=
  ruleHours d = false ∧ ruleOvertime d = false ∧ ruleRtt d = false ∧
  rule13 d = true

/-- The line is dispatched by rule 5 (meal/transport allowance). -/
def allowanceRulePos (d : String) : Prop :=
  ruleHours d = false ∧ ruleOvertime d = false ∧ ruleRtt d = false ∧
  rule13 d = false ∧ ruleAllowance d = true

/-- The line is dispatched by rule 6 (default). -/
def defaultRulePos (d : String) : Prop :=
  ruleHours d = false ∧ ruleOvertime d = false ∧ ruleRtt d = false ∧
  rule13 d = false ∧ ruleAllowance d = false

/-- The line is governed by one of the ratio rules named by the spec:
regular hours, 13th-month bonus, or the default rule. -/
def ratioRulePos (d : String) : Prop :=
  ruleHoursPos d ∨ rule13Pos d ∨ defaultRulePos d

/-! ## Spec-side derived-hours sums (for the extractor claim) -/

/-- The line's unit code denotes hours (`HUR`, or its lowercase variant the
source also accepts). -/
def hurUnit (l : ParsedLine) : Bool :=
  l.unit == some "HUR" || l.unit == some "hur"

/-- The line's description is present and contains the hours marker. -/
def heureDesc (l : ParsedLine) : Bool :=
  match l.description with
  | some d => strIn "heure" (lowerStr d)
  | none => false

/-- The claim's formula: sum of the quantities of all lines whose
unit-of-measure code denotes hours. -/
def sumHURQuantities (lines : List ParsedLine) : ℚ :=
  ((lines.filter hurUnit).map fun l => l.quantity).sum

/-- The amended formula: sum over lines with an hours unit code whose
description also contains the hours marker. -/
def sumHourMarkedHUR (lines : List ParsedLine) : ℚ :=
  ((lines.filter fun l => heureDesc l && hurUnit l).map fun l => l.quantity).sum

/-! ## Concrete inputs used by counterexamples and witnesses -/

/-- A date parser that fails on every string (legitimate: `dateutil` accepts
none of the strings used alongside it below, or is never reached). -/
def pdNone : String → Option ℤ := fun _ => none

/-- A date parser for the concrete July-2025 strings used below. -/
def pdJul : String → Option ℤ := fun s =>
  if s = "2025-07-08" then some 8
  else if s = "2025-07-10" then some 10
  else none

/-- The regular-hours line used with `c1data`. -/
def c1line : LineItem := ⟨"Heures travaillées", 35, "HUR", 1, 35⟩

/-- Record with one regular-hours line, 38 invoiced vs 8 RAF hours. -/
def c1data : InvoiceData :=
  { period_start := some "2025-06-01", period_end := some "2025-06-05",
    raf_hours := 8, invoice_hours := 38, total_charges := 0, vat_rate := 20,
    raf_details := [],
    lines := [⟨"Heures travaillées", 35, "HUR", 1, 35⟩] }

/-- Record with two lines sharing one description. -/
def c3data : InvoiceData :=
  { period_start := some "2025-06-01", period_end := some "2025-06-05",
    raf_hours := 0, invoice_hours := 0, total_charges := 0, vat_rate := 20,
    raf_details := [],
    lines := [⟨"Prime exceptionnelle", 10, "PCE", 1, 10⟩,
              ⟨"Prime exceptionnelle", 10, "PCE", 1, 10⟩] }

/-- Single-day record whose adjustment plan holds a ratio-scaled `heures`
entry ahead of the overtime entry it shadows by containment. -/
def c4data : InvoiceData :=
  { period_start := some "2025-06-30", period_end := some "2025-06-30",
    raf_hours := 8, invoice_hours := 38, total_charges := 0, vat_rate := 20,
    raf_details := [],
    lines := [⟨"heures", 35, "HUR", 1, 35⟩,
              ⟨"heures supplémentaires", 1, "HUR", 1, 1⟩] }

/-- Single-day record holding only one overtime line. -/
def c4wdata : InvoiceData :=
  { period_start := some "2025-06-30", period_end := some "2025-06-30",
    raf_hours := 8, invoice_hours := 38, total_charges := 0, vat_rate := 20,
    raf_details := [],
    lines := [⟨"Heures Supplémentaires 125%", 1, "HUR", 1, 1⟩] }

/-- The overtime line of `c4wdata`. -/
def c4wline : LineItem := ⟨"Heures Supplémentaires 125%", 1, "HUR", 1, 1⟩

/-- The overtime line element of the `c4data` document. -/
def c4elem : LineElem :=
  { description := some "heures supplémentaires",
    itemQuantity := some 1, chargeTotal := some 1 }

/-- Record whose target period is reversed (start after end). -/
def c5data : InvoiceData :=
  { period_start := some "2025-07-10", period_end := some "2025-07-08",
    raf_hours := 0, invoice_hours := 0, total_charges := 0, vat_rate := 20,
    raf_details := [],
    lines := [⟨"Indemnité de Transport", 5, "PCE", 1, 5⟩] }

/-- A transport line for the allowance witness. -/
def c5line : LineItem := ⟨"Indemnité de Transport", 5, "PCE", 1, 5⟩

/-- Record used by the allowance witness (forward 3-day period). -/
def c5wdata : InvoiceData :=
  { period_start := some "2025-07-08", period_end := some "2025-07-10",
    raf_hours := 0, invoice_hours := 0, total_charges := 0, vat_rate := 20,
    raf_details := [],
    lines := [⟨"Indemnité de Transport", 5, "PCE", 1, 5⟩] }

/-- A line with an hours unit code but no hours marker in its description. -/
def c6line : ParsedLine :=
  { ltype := none, description := some "Prime exceptionnelle",
    quantity := 5, unit := some "HUR", unit_price := 1, total := 5 }

/-- Record whose cent-reconciliation condition fires while every line
amount is zero. -/
def c7data : InvoiceData :=
  { period_start := some "2025-06-01", period_end := some "2025-06-05",
    raf_hours := 0, invoice_hours := 1, total_charges := 1/2, vat_rate := 20,
    raf_details := [("Heures travaillées", 1)],
    lines := [⟨"Prime exceptionnelle", 0, "PCE", 0, 0⟩] }

/-- The adjustment plan of `c7data` before cent reconciliation. -/
def c7pre : AdjustmentSet :=
  { target_period_start := some "2025-06-01",
    target_period_end := some "2025-06-05",
    target_hours := 0, ratio := 0,
    lines := [("Prime exceptionnelle",
      { old_quantity := 0, old_amount := 0, unit_price := 0,
        action := "adjust", new_quantity := 0, new_amount := 0 })],
    new_total_charges := 0, new_total_tax := 0, new_total_amount := 0 }

/-- Adjustment set for the header-fixing claim. -/
def c8adj : AdjustmentSet :=
  { target_period_start := some "2025-06-30",
    target_period_end := some "2025-06-30",
    target_hours := 8, ratio := 1, lines := [],
    new_total_charges := 100, new_total_tax := 20, new_total_amount := 120 }

/-- Header carrying the three totals and the hours-count annotation. -/
def c8header : HeaderElem :=
  { totalCharges := some (11456/10), totalTax := some (22912/100),
    totalAmount := some (137472/100),
    descriptions := [("NbHeuresFacturees", some "38.00")] }

/-- Document with an invoice root, every lookup succeeding, and one
malformed `Duration` text. -/
def c9doc : Doc :=
  ⟨some { docId := .text "FAC-1",
          headerTimecards := [⟨.text "2025-06-01", .text "2025-06-07",
            [⟨some "Heures travaillées", .text .bad, .text (.num 1)⟩]⟩],
          lineTimecards := [],
          header := none,
          lines := [⟨.text "100", .text "Heures travaillées",
                     .text (.num 8, some "HUR"), .text (.num 10),
                     .text (.num 80)⟩] }⟩

/-- Invoice whose timecards are line-anchored only: the header timecard
lookup misses, so position detection takes the raising fallback. -/
def c9lineinv : InvoiceX :=
  { docId := .text "FAC-3",
    headerTimecards := [],
    lineTimecards := [⟨.text "2025-06-01", .text "2025-06-07",
      [⟨some "Heures travaillées", .text (.num 8), .text (.num 8)⟩]⟩],
    header := none,
    lines := [⟨.text "100", .text "Heures travaillées",
               .text (.num 8, some "HUR"), .text (.num 10),
               .text (.num 80)⟩] }

/-- Well-formed invoice for the extraction-success witness (its interval's
`Quantity` is present with empty text, exercising the blank-defaults path). -/
def c9inv : InvoiceX :=
  { docId := .text "FAC-2",
    headerTimecards := [⟨.text "2025-06-01", .text "2025-06-07",
      [⟨some "Heures travaillées", .text (.num 8), .blank⟩]⟩],
    lineTimecards := [],
    header := some ⟨.text (.num 100), .text (.num 20), .text (.num 120),
                    .text (.num 20), [("DEB_PER", some "2025-06-01")]⟩,
    lines := [⟨.text "100", .text "Heures travaillées",
               .text (.num 8, some "HUR"), .text (.num 10),
               .text (.num 80)⟩] }

/-- Well-formed document for the extraction-success witness. -/
def c9good : Doc := ⟨some c9inv⟩

/-- Multi-day record for the action-invariant witness. -/
def c10data : InvoiceData :=
  { period_start := some "2025-06-01", period_end := some "2025-06-05",
    raf_hours := 8, invoice_hours := 38, total_charges := 0, vat_rate := 20,
    raf_details := [],
    lines := [⟨"Heures Supplémentaires 125%", 1, "HUR", 1, 1⟩] }


/-! ## Helper lemmas about the calculator -/

theorem line_adjustment_cases (pd : String → Option ℤ) (data : InvoiceData)
    (ratio : ℚ) (l : LineItem) :
    (line_adjustment pd data ratio l).action = "adjust" ∨
    ((line_adjustment pd data ratio l).action = "remove" ∧
     data.period_start = data.period_end ∧
     (line_adjustment pd data ratio l).new_quantity = 0 ∧
     (line_adjustment pd data ratio l).new_amount = 0) := by
  unfold line_adjustment
  dsimp only
  split_ifs with h1 h2 hc h3 hc2 h4 h5 <;>
    first
      | (left; rfl)
      | (right; exact ⟨rfl, by assumption, rfl, rfl⟩)

theorem line_adjustment_remove (pd : String → Option ℤ) (data : InvoiceData)
    (ratio : ℚ) (l : LineItem)
    (hcol : data.period_start = data.period_end)
    (hrule : overtimeRulePos (lowerStr l.description) ∨
             rttRulePos (lowerStr l.description)) :
    (line_adjustment pd data ratio l).action = "remove" ∧
    (line_adjustment pd data ratio l).new_quantity = 0 ∧
    (line_adjustment pd data ratio l).new_amount = 0 := by
  unfold line_adjustment
  dsimp only
  rcases hrule with ⟨hA, hB⟩ | ⟨hA, hB, hC⟩
  · simp [hA, hB, hcol]
  · simp [hA, hB, hC, hcol]

theorem line_adjustment_ratio (pd : String → Option ℤ) (data : InvoiceData)
    (ratio : ℚ) (l : LineItem)
    (hrule : ratioRulePos (lowerStr l.description)) :
    line_adjustment pd data ratio l =
      { old_quantity := l.quantity, old_amount := l.total,
        unit_price := l.unit_price, action := "adjust",
        new_quantity := round_quantity (l.quantity * ratio),
        new_amount := calculate_line_amount (round_quantity (l.quantity * ratio))
                        l.unit_price } := by
  unfold line_adjustment
  dsimp only
  rcases hrule with h1 | ⟨hA, hB, hC, hD⟩ | ⟨hA, hB, hC, hD, hE⟩
  · simp [ruleHoursPos] at h1
    simp [h1]
  · simp [hA, hB, hC, hD]
  · simp [hA, hB, hC, hD, hE]

theorem line_adjustment_days (pd : String → Option ℤ) (data : InvoiceData)
    (ratio : ℚ) (l : LineItem)
    (hrule : allowanceRulePos (lowerStr l.description)) :
    (line_adjustment pd data ratio l).new_quantity =
      ((calculate_days_worked pd data.period_start data.period_end : ℤ) : ℚ) := by
  unfold line_adjustment
  dsimp only
  rcases hrule with ⟨hA, hB, hC, hD, hE⟩
  simp [hA, hB, hC, hD, hE]

theorem dictInsert_mem (dict : List (String × Adjustment)) (k : String)
    (v : Adjustment) (p : String × Adjustment) (hp : p ∈ dictInsert dict k v) :
    p ∈ dict ∨ p = (k, v) := by
  unfold dictInsert at hp
  split at hp
  · rcases List.mem_map.mp hp with ⟨q, hq, hfq⟩
    by_cases hk : q.1 = k
    · right; simp [hk] at hfq; exact hfq.symm
    · left; simp [hk] at hfq; exact hfq ▸ hq
  · rcases List.mem_append.mp hp with h | h
    · exact Or.inl h
    · right; simpa using h

theorem dictInsert_self_mem (dict : List (String × Adjustment)) (k : String)
    (v : Adjustment) : (k, v) ∈ dictInsert dict k v := by
  unfold dictInsert
  split
  · next hany =>
      rcases List.any_eq_true.mp hany with ⟨q, hq, hk⟩
      refine List.mem_map.mpr ⟨q, hq, ?_⟩
      simp at hk
      simp [hk]
  · simp

theorem dictInsert_preserve_key (dict : List (String × Adjustment)) (k : String)
    (v : Adjustment) (k₀ : String) (h : ∃ a, (k₀, a) ∈ dict) :
    ∃ a, (k₀, a) ∈ dictInsert dict k v := by
  rcases h with ⟨a, ha⟩
  unfold dictInsert
  split
  · by_cases hk : k₀ = k
    · subst hk
      exact ⟨v, List.mem_map.mpr ⟨(k₀, a), ha, by simp⟩⟩
    · exact ⟨a, List.mem_map.mpr ⟨(k₀, a), ha, by simp [hk]⟩⟩
  · exact ⟨a, List.mem_append_left _ ha⟩

theorem dictInsert_fresh (dict : List (String × Adjustment)) (k : String)
    (v : Adjustment) (h : ∀ p ∈ dict, p.1 ≠ k) :
    dictInsert dict k v = dict ++ [(k, v)] := by
  unfold dictInsert
  rw [if_neg]
  simp only [List.any_eq_true, not_exists, not_and]
  intro q hq
  simpa using h q hq

theorem dictInsert_keys (dict : List (String × Adjustment)) (k : String)
    (v : Adjustment) :
    (dictInsert dict k v).map Prod.fst = dict.map Prod.fst ∨
    ((dictInsert dict k v).map Prod.fst = dict.map Prod.fst ++ [k] ∧
     ∀ p ∈ dict, p.1 ≠ k) := by
  unfold dictInsert
  split
  · left
    rw [List.map_map]
    apply List.map_congr_left
    intro q hq
    by_cases hk : q.1 = k
    · simp [hk]
    · simp [hk]
  · next hany =>
    right
    refine ⟨by simp, ?_⟩
    intro p hp hpk
    exact hany (List.any_eq_true.mpr ⟨p, hp, by simp [hpk]⟩)

theorem dictInsert_keys_nodup (dict : List (String × Adjustment)) (k : String)
    (v : Adjustment) (h : (dict.map Prod.fst).Nodup) :
    ((dictInsert dict k v).map Prod.fst).Nodup := by
  rcases dictInsert_keys dict k v with heq | ⟨heq, hfresh⟩
  · rw [heq]; exact h
  · rw [heq]
    rw [List.nodup_append]
    refine ⟨h, List.nodup_singleton _, ?_⟩
    intro x hx hx2
    simp only [List.mem_singleton] at hx2
    subst hx2
    rcases List.mem_map.mp hx with ⟨q, hq, hfq⟩
    exact hfresh q hq hfq

theorem linesLoop_mem (pd : String → Option ℤ) (data : InvoiceData) (ratio : ℚ) :
    ∀ (ls : List LineItem) (dict : List (String × Adjustment)) (total : ℚ)
      (p : String × Adjustment),
      p ∈ (linesLoop pd data ratio ls dict total).1 →
      p ∈ dict ∨ ∃ l ∈ ls, p = (l.description, line_adjustment pd data ratio l)
  | [], dict, total, p, hp => Or.inl hp
  | l :: rest, dict, total, p, hp => by
    rcases linesLoop_mem pd data ratio rest _ _ p hp with h | ⟨l', hl', he⟩
    · rcases dictInsert_mem _ _ _ _ h with h' | h'
      · exact Or.inl h'
      · exact Or.inr ⟨l, List.mem_cons_self l rest, h'⟩
    · exact Or.inr ⟨l', List.mem_cons_of_mem l hl', he⟩

theorem linesLoop_keys (pd : String → Option ℤ) (data : InvoiceData) (ratio : ℚ) :
    ∀ (ls : List LineItem) (dict : List (String × Adjustment)) (total : ℚ)
      (k₀ : String), (∃ a, (k₀, a) ∈ dict) →
      ∃ a, (k₀, a) ∈ (linesLoop pd data ratio ls dict total).1
  | [], _, _, _, h => h
  | l :: rest, dict, _, k₀, h =>
    linesLoop_keys pd data ratio rest _ _ k₀
      (dictInsert_preserve_key dict l.description _ k₀ h)

theorem linesLoop_key_of_mem (pd : String → Option ℤ) (data : InvoiceData)
    (ratio : ℚ) :
    ∀ (ls : List LineItem) (dict : List (String × Adjustment)) (total : ℚ)
      (l : LineItem), l ∈ ls →
      ∃ a, (l.description, a) ∈ (linesLoop pd data ratio ls dict total).1
  | [], _, _, _, h => absurd h (List.not_mem_nil _)
  | l' :: rest, dict, total, l, h => by
    rcases List.mem_cons.mp h with h | h
    · subst h
      exact linesLoop_keys pd data ratio rest _ _ l.description
        ⟨_, dictInsert_self_mem dict l.description _⟩
    · exact linesLoop_key_of_mem pd data ratio rest _ _ l h

theorem linesLoop_keys_nodup (pd : String → Option ℤ) (data : InvoiceData)
    (ratio : ℚ) :
    ∀ (ls : List LineItem) (dict : List (String × Adjustment)) (total : ℚ),
      (dict.map Prod.fst).Nodup →
      (((linesLoop pd data ratio ls dict total).1).map Prod.fst).Nodup
  | [], _, _, h => h
  | l :: rest, dict, _, h =>
    linesLoop_keys_nodup pd data ratio rest _ _
      (dictInsert_keys_nodup dict l.description _ h)

theorem sumAmounts_from (l : List (String × Adjustment)) :
    ∀ init : ℚ,
      l.foldl (fun acc p => acc + p.2.new_amount) init = init + sumAmounts l := by
  induction l with
  | nil => intro init; simp [sumAmounts]
  | cons p rest ih =>
    intro init
    simp only [sumAmounts, List.foldl_cons] at *
    rw [ih (init + p.2.new_amount), ih (0 + p.2.new_amount)]
    ring

theorem sumAmounts_append (l₁ l₂ : List (String × Adjustment)) :
    sumAmounts (l₁ ++ l₂) = sumAmounts l₁ + sumAmounts l₂ := by
  unfold sumAmounts
  rw [List.foldl_append, sumAmounts_from]
  rfl

theorem linesLoop_sum (pd : String → Option ℤ) (data : InvoiceData) (ratio : ℚ) :
    ∀ (ls : List LineItem) (dict : List (String × Adjustment)) (total : ℚ),
      (∀ l ∈ ls, ∀ p ∈ dict, p.1 ≠ l.description) →
      (ls.map fun l => l.description).Nodup →
      total = sumAmounts dict →
      (linesLoop pd data ratio ls dict total).2 =
        sumAmounts (linesLoop pd data ratio ls dict total).1
  | [], _, _, _, _, htot => htot
  | l :: rest, dict, total, hfresh, hnd, htot => by
    have hfl : ∀ p ∈ dict, p.1 ≠ l.description :=
      hfresh l (List.mem_cons_self l rest)
    have hins : dictInsert dict l.description (line_adjustment pd data ratio l) =
        dict ++ [(l.description, line_adjustment pd data ratio l)] :=
      dictInsert_fresh dict l.description _ hfl
    apply linesLoop_sum pd data ratio rest
    · intro l' hl' p hp
      rw [hins] at hp
      rcases List.mem_append.mp hp with h | h
      · exact hfresh l' (List.mem_cons_of_mem l hl') p h
      · simp only [List.mem_singleton] at h
        subst h
        simp only [List.map_cons, List.nodup_cons] at hnd
        intro hcontra
        have hdesc : l'.description = l.description := by simpa using hcontra.symm
        apply hnd.1
        rw [← hdesc]
        exact List.mem_map_of_mem (fun x => x.description) hl'
    · simp only [List.map_cons, List.nodup_cons] at hnd
      exact hnd.2
    · rw [hins, sumAmounts_append, htot]
      simp [sumAmounts]

/-! ## Helper lemmas about the smallest-positive-line search -/

theorem smallestStep_none_acc (p : String × Adjustment) :
    smallestStep none p =
      if p.2.new_amount > 0 then some (p.1, p.2.new_amount) else none := by
  unfold smallestStep
  split <;> rfl

theorem smallestStep_some_acc (k : String) (a : ℚ) (p : String × Adjustment) :
    smallestStep (some (k, a)) p =
      if p.2.new_amount > 0 then
        (if p.2.new_amount < a then some (p.1, p.2.new_amount) else some (k, a))
      else some (k, a) := by
  unfold smallestStep
  split <;> rfl

theorem smallestStep_some (acc : Option (String × ℚ)) (p : String × Adjustment)
    (k₀ : String) (a₀ : ℚ) (hacc : acc = some (k₀, a₀)) :
    ∃ k₁ a₁, smallestStep acc p = some (k₁, a₁) ∧ a₁ ≤ a₀ := by
  subst hacc
  rw [smallestStep_some_acc]
  split_ifs with h1 h2
  · exact ⟨p.1, p.2.new_amount, rfl, le_of_lt h2⟩
  · exact ⟨k₀, a₀, rfl, le_refl a₀⟩
  · exact ⟨k₀, a₀, rfl, le_refl a₀⟩

theorem smallestStep_le (acc : Option (String × ℚ)) (p : String × Adjustment)
    (k₁ : String) (a₁ : ℚ) (hs : smallestStep acc p = some (k₁, a₁))
    (hp : 0 < p.2.new_amount) : a₁ ≤ p.2.new_amount := by
  match acc with
  | none =>
    rw [smallestStep_none_acc, if_pos hp] at hs
    simp only [Option.some.injEq, Prod.mk.injEq] at hs
    exact le_of_eq hs.2.symm
  | some (k₀, a₀) =>
    rw [smallestStep_some_acc, if_pos hp] at hs
    split_ifs at hs with h
    · simp only [Option.some.injEq, Prod.mk.injEq] at hs
      exact le_of_eq hs.2.symm
    · simp only [Option.some.injEq, Prod.mk.injEq] at hs
      rw [← hs.2]
      exact le_of_not_lt h

theorem smallestStep_pos (acc : Option (String × ℚ)) (p : String × Adjustment)
    (k₁ : String) (a₁ : ℚ)
    (hacc : ∀ k₀ a₀, acc = some (k₀, a₀) → 0 < a₀)
    (hs : smallestStep acc p = some (k₁, a₁)) : 0 < a₁ := by
  match acc with
  | none =>
    rw [smallestStep_none_acc] at hs
    split_ifs at hs with h
    · simp only [Option.some.injEq, Prod.mk.injEq] at hs
      exact hs.2 ▸ h
  | some (k₀, a₀) =>
    rw [smallestStep_some_acc] at hs
    split_ifs at hs with h1 h2 <;>
      simp only [Option.some.injEq, Prod.mk.injEq] at hs
    · exact hs.2 ▸ h1
    · exact hs.2 ▸ hacc k₀ a₀ rfl
    · exact hs.2 ▸ hacc k₀ a₀ rfl

theorem smallestPosAux_mono :
    ∀ (l : List (String × Adjustment)) (acc : Option (String × ℚ))
      (k : String) (amt : ℚ) (k₀ : String) (a₀ : ℚ),
      acc = some (k₀, a₀) → smallestPosAux acc l = some (k, amt) → amt ≤ a₀
  | [], acc, k, amt, k₀, a₀, hacc, hres => by
    subst hacc
    simp only [smallestPosAux, Option.some.injEq, Prod.mk.injEq] at hres
    exact le_of_eq hres.2.symm
  | p :: rest, acc, k, amt, k₀, a₀, hacc, hres => by
    rcases smallestStep_some acc p k₀ a₀ hacc with ⟨k₁, a₁, hs, hle⟩
    exact le_trans (smallestPosAux_mono rest _ k amt k₁ a₁ hs hres) hle

theorem smallestPosAux_min :
    ∀ (l : List (String × Adjustment)) (acc : Option (String × ℚ))
      (k : String) (amt : ℚ),
      smallestPosAux acc l = some (k, amt) →
      ∀ p ∈ l, 0 < p.2.new_amount → amt ≤ p.2.new_amount
  | [], _, _, _, _, p, hp, _ => absurd hp (List.not_mem_nil p)
  | q :: rest, acc, k, amt, hres, p, hp, hpos => by
    rcases List.mem_cons.mp hp with h | h
    · subst h
      have hq : ∃ k₁ a₁, smallestStep acc p = some (k₁, a₁) := by
        match acc with
        | none =>
          rw [smallestStep_none_acc, if_pos hpos]
          exact ⟨p.1, p.2.new_amount, rfl⟩
        | some (k₀, a₀) =>
          rcases smallestStep_some (some (k₀, a₀)) p k₀ a₀ rfl with
            ⟨k₁, a₁, hs, _⟩
          exact ⟨k₁, a₁, hs⟩
      rcases hq with ⟨k₁, a₁, hs⟩
      have h1 : a₁ ≤ p.2.new_amount := smallestStep_le acc p k₁ a₁ hs hpos
      have h2 : amt ≤ a₁ := smallestPosAux_mono rest _ k amt k₁ a₁ hs hres
      exact le_trans h2 h1
    · exact smallestPosAux_min rest _ k amt hres p h hpos

theorem smallestPosAux_spec :
    ∀ (l : List (String × Adjustment)) (acc : Option (String × ℚ))
      (k : String) (amt : ℚ),
      (∀ k₀ a₀, acc = some (k₀, a₀) → 0 < a₀) →
      smallestPosAux acc l = some (k, amt) →
      0 < amt ∧ (acc = some (k, amt) ∨
        ∃ adj, (k, adj) ∈ l ∧ adj.new_amount = amt)
  | [], acc, k, amt, hacc, hres => by
    simp only [smallestPosAux] at hres
    exact ⟨hacc k amt hres, Or.inl hres⟩
  | p :: rest, acc, k, amt, hacc, hres => by
    have hstep : ∀ k₀ a₀, smallestStep acc p = some (k₀, a₀) → 0 < a₀ :=
      fun k₀ a₀ hs => smallestStep_pos acc p k₀ a₀ hacc hs
    rcases smallestPosAux_spec rest (smallestStep acc p) k amt hstep hres with
      ⟨hpos, hcase⟩
    refine ⟨hpos, ?_⟩
    rcases hcase with hc | ⟨adj, hadj, hamt⟩
    · match acc, hc with
      | none, hc =>
        rw [smallestStep_none_acc] at hc
        split_ifs at hc with h
        simp only [Option.some.injEq, Prod.mk.injEq] at hc
        exact Or.inr ⟨p.2, by rw [← hc.1]; exact List.mem_cons_self p rest, hc.2⟩
      | some (k₀, a₀), hc =>
        rw [smallestStep_some_acc] at hc
        split_ifs at hc with h1 h2
        · simp only [Option.some.injEq, Prod.mk.injEq] at hc
          exact Or.inr ⟨p.2, by rw [← hc.1]; exact List.mem_cons_self p rest, hc.2⟩
        · exact Or.inl hc
        · exact Or.inl hc
    · exact Or.inr ⟨adj, List.mem_cons_of_mem p hadj, hamt⟩

theorem smallestPos_spec (l : List (String × Adjustment)) (k : String) (amt : ℚ)
    (hres : smallestPos l = some (k, amt)) :
    0 < amt ∧ (∃ adj, (k, adj) ∈ l ∧ adj.new_amount = amt) ∧
    ∀ p ∈ l, 0 < p.2.new_amount → amt ≤ p.2.new_amount := by
  rcases smallestPosAux_spec l none k amt (by intro _ _ h; cases h) hres with
    ⟨hpos, hcase⟩
  rcases hcase with hc | hc
  · cases hc
  · exact ⟨hpos, hc, smallestPosAux_min l none k amt hres⟩

theorem smallestPosAux_none :
    ∀ (l : List (String × Adjustment)) (acc : Option (String × ℚ)),
      smallestPosAux acc l = none →
      acc = none ∧ ∀ p ∈ l, ¬ 0 < p.2.new_amount
  | [], acc, hres => ⟨hres, by intro p hp; cases hp⟩
  | p :: rest, acc, hres => by
    rcases smallestPosAux_none rest (smallestStep acc p) hres with ⟨hstep, hrest⟩
    have hacc : acc = none ∧ ¬ 0 < p.2.new_amount := by
      match acc with
      | none =>
        rw [smallestStep_none_acc] at hstep
        split_ifs at hstep with h
        exact ⟨rfl, h⟩
      | some (k₀, a₀) =>
        rw [smallestStep_some_acc] at hstep
        split_ifs at hstep <;> cases hstep
    refine ⟨hacc.1, ?_⟩
    intro q hq
    rcases List.mem_cons.mp hq with h | h
    · exact h ▸ hacc.2
    · exact hrest q h

theorem smallestPos_none (l : List (String × Adjustment))
    (hres : smallestPos l = none) : ∀ p ∈ l, ¬ 0 < p.2.new_amount :=
  (smallestPosAux_none l none hres).2

theorem keys_nodup_unique :
    ∀ (l : List (String × Adjustment)) (k : String) (a b : Adjustment),
      (l.map Prod.fst).Nodup → (k, a) ∈ l → (k, b) ∈ l → a = b
  | [], _, _, _, _, ha, _ => absurd ha (List.not_mem_nil _)
  | p :: rest, k, a, b, hnd, ha, hb => by
    simp only [List.map_cons, List.nodup_cons] at hnd
    rcases List.mem_cons.mp ha with ha' | ha' <;>
      rcases List.mem_cons.mp hb with hb' | hb'
    · rw [← ha'] at hb'
      injection hb' with h1 h2
      exact h2.symm
    · exfalso
      apply hnd.1
      have hk : p.1 = k := by rw [← ha']
      rw [hk]
      exact List.mem_map_of_mem Prod.fst hb'
    · exfalso
      apply hnd.1
      have hk : p.1 = k := by rw [← hb']
      rw [hk]
      exact List.mem_map_of_mem Prod.fst ha'
    · exact keys_nodup_unique rest k a b hnd.2 ha' hb'

/-! ## Helper lemmas about cent reconciliation -/

theorem adjust_cent_no_run (data : InvoiceData) (A : AdjustmentSet)
    (h : ¬(0 < |rafTotal data - A.new_total_charges| ∧
           |rafTotal data - A.new_total_charges| < 1)) :
    adjust_cent_difference data A = A := by
  unfold adjust_cent_difference
  exact if_neg h

theorem adjust_cent_none (data : InvoiceData) (A : AdjustmentSet)
    (hs : smallestPos A.lines = none) :
    adjust_cent_difference data A = A := by
  unfold adjust_cent_difference
  dsimp only
  rw [hs]
  split <;> rfl

theorem adjust_cent_some (data : InvoiceData) (A : AdjustmentSet)
    (k : String) (amt : ℚ)
    (h : 0 < |rafTotal data - A.new_total_charges| ∧
         |rafTotal data - A.new_total_charges| < 1)
    (hs : smallestPos A.lines = some (k, amt)) :
    adjust_cent_difference data A =
      { A with
        lines := centUpd data A k,
        new_total_charges := sumAmounts (centUpd data A k),
        new_total_tax := roundHalfUp2 (sumAmounts (centUpd data A k) * vatRate data),
        new_total_amount := sumAmounts (centUpd data A k) +
          roundHalfUp2 (sumAmounts (centUpd data A k) * vatRate data) } := by
  unfold adjust_cent_difference centUpd
  dsimp only
  rw [hs, if_pos h]


theorem centUpd_mem (data : InvoiceData) (A : AdjustmentSet) (k : String)
    (p : String × Adjustment) (hp : p ∈ centUpd data A k) :
    ∃ q ∈ A.lines, p.1 = q.1 ∧ p.2.action = q.2.action ∧
      p.2.new_quantity = q.2.new_quantity := by
  rcases List.mem_map.mp hp with ⟨q, hq, hfq⟩
  refine ⟨q, hq, ?_⟩
  by_cases hk : q.1 = k
  · rw [if_pos hk] at hfq
    rw [← hfq]
    exact ⟨rfl, rfl, rfl⟩
  · rw [if_neg hk] at hfq
    rw [← hfq]
    exact ⟨rfl, rfl, rfl⟩

theorem centUpd_key (data : InvoiceData) (A : AdjustmentSet) (k : String)
    (k₀ : String) (h : ∃ a, (k₀, a) ∈ A.lines) :
    ∃ a, (k₀, a) ∈ centUpd data A k := by
  rcases h with ⟨a, ha⟩
  by_cases hk : k₀ = k
  · subst hk
    exact ⟨{ a with new_amount := a.new_amount +
        (if A.new_total_charges < rafTotal data then
          |rafTotal data - A.new_total_charges|
        else -|rafTotal data - A.new_total_charges|) },
      List.mem_map.mpr ⟨(k₀, a), ha, by simp⟩⟩
  · exact ⟨a, List.mem_map.mpr ⟨(k₀, a), ha, by simp [centUpd, hk]⟩⟩

theorem centUpd_mem_of_ne (data : InvoiceData) (A : AdjustmentSet) (k : String)
    (k₀ : String) (a : Adjustment) (ha : (k₀, a) ∈ A.lines) (hk : k₀ ≠ k) :
    (k₀, a) ∈ centUpd data A k :=
  List.mem_map.mpr ⟨(k₀, a), ha, by rw [if_neg hk]⟩

theorem adjust_cent_mem (data : InvoiceData) (A : AdjustmentSet)
    (p : String × Adjustment) (hp : p ∈ (adjust_cent_difference data A).lines) :
    ∃ q ∈ A.lines, p.1 = q.1 ∧ p.2.action = q.2.action ∧
      p.2.new_quantity = q.2.new_quantity := by
  by_cases hcond : 0 < |rafTotal data - A.new_total_charges| ∧
      |rafTotal data - A.new_total_charges| < 1
  · match hopt : smallestPos A.lines with
    | none =>
      rw [adjust_cent_none data A hopt] at hp
      exact ⟨p, hp, rfl, rfl, rfl⟩
    | some (k, amt) =>
      rw [adjust_cent_some data A k amt hcond hopt] at hp
      exact centUpd_mem data A k p hp
  · rw [adjust_cent_no_run data A hcond] at hp
    exact ⟨p, hp, rfl, rfl, rfl⟩

theorem adjust_cent_key (data : InvoiceData) (A : AdjustmentSet) (k₀ : String)
    (h : ∃ a, (k₀, a) ∈ A.lines) :
    ∃ a, (k₀, a) ∈ (adjust_cent_difference data A).lines := by
  by_cases hcond : 0 < |rafTotal data - A.new_total_charges| ∧
      |rafTotal data - A.new_total_charges| < 1
  · match hopt : smallestPos A.lines with
    | none => rw [adjust_cent_none data A hopt]; exact h
    | some (k, amt) =>
      rw [adjust_cent_some data A k amt hcond hopt]
      exact centUpd_key data A k k₀ h
  · rw [adjust_cent_no_run data A hcond]; exact h

theorem adjust_cent_mem_nonpos (data : InvoiceData) (A : AdjustmentSet)
    (k₀ : String) (a : Adjustment) (hnd : (A.lines.map Prod.fst).Nodup)
    (ha : (k₀, a) ∈ A.lines) (hle : ¬ 0 < a.new_amount) :
    (k₀, a) ∈ (adjust_cent_difference data A).lines := by
  by_cases hcond : 0 < |rafTotal data - A.new_total_charges| ∧
      |rafTotal data - A.new_total_charges| < 1
  · match hopt : smallestPos A.lines with
    | none => rw [adjust_cent_none data A hopt]; exact ha
    | some (k, amt) =>
      rw [adjust_cent_some data A k amt hcond hopt]
      rcases smallestPos_spec A.lines k amt hopt with ⟨hpos, ⟨adj, hadj, hamt⟩, _⟩
      refine centUpd_mem_of_ne data A k k₀ a ha ?_
      intro hkk
      subst hkk
      have heq : a = adj := keys_nodup_unique A.lines k₀ a adj hnd ha hadj
      rw [heq, hamt] at hle
      exact hle hpos
  · rw [adjust_cent_no_run data A hcond]; exact ha

theorem adjust_cent_sum (data : InvoiceData) (A : AdjustmentSet)
    (h : A.new_total_charges = sumAmounts A.lines) :
    (adjust_cent_difference data A).new_total_charges =
      sumAmounts (adjust_cent_difference data A).lines := by
  by_cases hcond : 0 < |rafTotal data - A.new_total_charges| ∧
      |rafTotal data - A.new_total_charges| < 1
  · match hopt : smallestPos A.lines with
    | none => rw [adjust_cent_none data A hopt]; exact h
    | some (k, amt) => rw [adjust_cent_some data A k amt hcond hopt]
  · rw [adjust_cent_no_run data A hcond]; exact h

theorem adjust_cent_ratio (data : InvoiceData) (A : AdjustmentSet) :
    (adjust_cent_difference data A).ratio = A.ratio := by
  unfold adjust_cent_difference
  dsimp only
  split
  · split <;> rfl
  · rfl

theorem calculate_adjustments_def (pd : String → Option ℤ) (data : InvoiceData) :
    calculate_adjustments pd data =
      adjust_cent_difference data
        { target_period_start := data.period_start,
          target_period_end := data.period_end,
          target_hours := data.raf_hours,
          ratio := calculate_ratio data,
          lines := (linesLoop pd data (calculate_ratio data) data.lines [] 0).1,
          new_total_charges :=
            (linesLoop pd data (calculate_ratio data) data.lines [] 0).2,
          new_total_tax := roundHalfUp2
            ((linesLoop pd data (calculate_ratio data) data.lines [] 0).2 *
              vatRate data),
          new_total_amount :=
            (linesLoop pd data (calculate_ratio data) data.lines [] 0).2 +
            roundHalfUp2
              ((linesLoop pd data (calculate_ratio data) data.lines [] 0).2 *
                vatRate data) } := rfl

theorem calc_lines_mem (pd : String → Option ℤ) (data : InvoiceData)
    (p : String × Adjustment) (hp : p ∈ (calculate_adjustments pd data).lines) :
    ∃ l ∈ data.lines, p.1 = l.description ∧
      p.2.action = (line_adjustment pd data (calculate_ratio data) l).action ∧
      p.2.new_quantity =
        (line_adjustment pd data (calculate_ratio data) l).new_quantity := by
  rw [calculate_adjustments_def] at hp
  rcases adjust_cent_mem data _ p hp with ⟨q, hq, hfst, hact, hqty⟩
  rcases linesLoop_mem pd data _ data.lines [] 0 q hq with h | ⟨l, hl, he⟩
  · cases h
  · exact ⟨l, hl, by rw [hfst, he], by rw [hact, he], by rw [hqty, he]⟩

theorem calc_key (pd : String → Option ℤ) (data : InvoiceData) (l : LineItem)
    (hl : l ∈ data.lines) :
    ∃ a, (l.description, a) ∈ (calculate_adjustments pd data).lines := by
  rw [calculate_adjustments_def]
  exact adjust_cent_key data _ l.description
    (linesLoop_key_of_mem pd data _ data.lines [] 0 l hl)

/-! ## Helper lemmas about the extractor -/

theorem except_pure_bind {α β : Type} (a : α) (f : α → Except String β) :
    ((pure a : Except String α) >>= f) = f a := rfl

theorem except_ok_bind {α β : Type} (a : α) (f : α → Except String β) :
    ((Except.ok a : Except String α) >>= f) = f a := rfl

theorem elemReq_ok {α : Type} (e : Elem α) (h : elemFound e = true) :
    ∃ t, elemReq e = Except.ok t := by
  match e with
  | .absent => cases h
  | .blank => exact ⟨none, rfl⟩
  | .text a => exact ⟨some a, rfl⟩

theorem goodElemNum_found (e : Elem NumT) (h : goodElemNum e = true) :
    elemFound e = true := by
  match e with
  | .absent => cases h
  | .blank => rfl
  | .text t => rfl

theorem floatField_ok (e : Elem NumT) (d : ℚ) (h : goodElemNum e = true) :
    ∃ q, floatField e d = Except.ok q := by
  match e with
  | .absent => cases h
  | .blank => exact ⟨d, rfl⟩
  | .text (.num q) => exact ⟨q, rfl⟩
  | .text .bad => cases h

theorem qtyField_ok (e : Elem (NumT × Option String))
    (h : goodQtyElem e = true) : ∃ v, qtyField e = Except.ok v := by
  match e with
  | .absent => cases h
  | .blank => exact ⟨(0, none), rfl⟩
  | .text (.num q, uom) => exact ⟨(q, some (uom.getD "PCE")), rfl⟩
  | .text (.bad, uom) => cases h

theorem intervalValue_ok (iv : Interval) (h : goodInterval iv = true) :
    ∃ q, intervalValue iv = Except.ok q := by
  unfold goodInterval at h
  rw [Bool.and_eq_true] at h
  rcases h with ⟨h1, h2⟩
  unfold intervalValue
  match hd : iv.duration, hq : iv.quantity with
  | .absent, _ => rw [hd] at h1; cases h1
  | .text .bad, _ => rw [hd] at h1; cases h1
  | .blank, .absent => rw [hq] at h2; cases h2
  | .text (.num q), .absent => rw [hq] at h2; cases h2
  | .blank, .text .bad => rw [hq] at h2; cases h2
  | .blank, .blank => exact ⟨0, rfl⟩
  | .blank, .text (.num q) => exact ⟨q, rfl⟩
  | .text (.num q), .blank => exact ⟨q, rfl⟩
  | .text (.num q), .text t2 => exact ⟨q, rfl⟩

theorem parseInterval_ok (acc : TCAcc) (iv : Interval)
    (h : goodInterval iv = true) :
    ∃ acc2, parseInterval acc iv = Except.ok acc2 := by
  rcases intervalValue_ok iv h with ⟨q, hq⟩
  unfold parseInterval
  rw [hq]
  exact ⟨_, rfl⟩

theorem foldlM_intervals_ok :
    ∀ (ivs : List Interval) (acc : TCAcc), ivs.all goodInterval = true →
      ∃ acc2, ivs.foldlM parseInterval acc = Except.ok acc2
  | [], acc, _ => ⟨acc, rfl⟩
  | iv :: rest, acc, h => by
    rw [List.all_cons, Bool.and_eq_true] at h
    rcases parseInterval_ok acc iv h.1 with ⟨acc1, hstep⟩
    rcases foldlM_intervals_ok rest acc1 h.2 with ⟨acc2, hrest⟩
    refine ⟨acc2, ?_⟩
    rw [List.foldlM_cons, hstep]
    simpa using hrest

theorem parseTimecard_ok (acc : TCAcc) (tc : TimeCard)
    (h : goodTimeCard tc = true) :
    ∃ acc2, parseTimecard acc tc = Except.ok acc2 := by
  unfold goodTimeCard at h
  simp only [Bool.and_eq_true] at h
  obtain ⟨⟨⟨h1, h2⟩, h3⟩, h4⟩ := h
  have hne : tc.intervals ≠ [] := by
    intro h0
    rw [h0] at h3
    cases h3
  rcases elemReq_ok tc.periodStart h1 with ⟨ps, hps⟩
  rcases elemReq_ok tc.periodEnd h2 with ⟨pe, hpe⟩
  unfold parseTimecard
  rw [hps, except_ok_bind, hpe, except_ok_bind]
  dsimp only
  rw [if_neg hne]
  exact foldlM_intervals_ok tc.intervals _ h4

theorem foldlM_timecards_ok :
    ∀ (tcs : List TimeCard) (acc : TCAcc), tcs.all goodTimeCard = true →
      ∃ acc2, tcs.foldlM parseTimecard acc = Except.ok acc2
  | [], acc, _ => ⟨acc, rfl⟩
  | tc :: rest, acc, h => by
    rw [List.all_cons, Bool.and_eq_true] at h
    rcases parseTimecard_ok acc tc h.1 with ⟨acc1, hstep⟩
    rcases foldlM_timecards_ok rest acc1 h.2 with ⟨acc2, hrest⟩
    refine ⟨acc2, ?_⟩
    rw [List.foldlM_cons, hstep]
    simpa using hrest

theorem parse_timecards_ok (tcs : List TimeCard)
    (h : tcs.all goodTimeCard = true) :
    ∃ acc, parse_timecards tcs = Except.ok acc := by
  unfold parse_timecards
  exact foldlM_timecards_ok tcs _ h

theorem parse_header_ok (h : HeaderX) (hg : goodHeader h = true) :
    ∃ r, parse_header h = Except.ok r := by
  unfold goodHeader at hg
  simp only [Bool.and_eq_true] at hg
  obtain ⟨⟨⟨⟨h1, h2⟩, h3⟩, h4⟩, h5⟩ := hg
  have hne : h.descriptions ≠ [] := by
    intro h0
    rw [h0] at h5
    cases h5
  rcases floatField_ok h.totalCharges 0 h1 with ⟨q1, e1⟩
  rcases floatField_ok h.totalTax 0 h2 with ⟨q2, e2⟩
  rcases floatField_ok h.totalAmount 0 h3 with ⟨q3, e3⟩
  rcases floatField_ok h.taxPercent 20 h4 with ⟨q4, e4⟩
  unfold parse_header
  rw [e1, except_ok_bind, e2, except_ok_bind, e3, except_ok_bind, e4,
    except_ok_bind]
  dsimp only
  rw [if_neg hne]
  exact ⟨_, rfl⟩

theorem parse_single_line_ok (lx : LineX) (hg : goodLine lx = true) :
    ∃ pl, parse_single_line lx = Except.ok pl := by
  unfold goodLine at hg
  simp only [Bool.and_eq_true] at hg
  obtain ⟨⟨⟨⟨h1, h2⟩, h3⟩, h4⟩, h5⟩ := hg
  rcases elemReq_ok lx.reasonCode h1 with ⟨rc, hrc⟩
  rcases elemReq_ok lx.description h2 with ⟨desc, hdesc⟩
  rcases qtyField_ok lx.itemQuantity h3 with ⟨qu, hqu⟩
  rcases floatField_ok lx.priceAmount 0 h4 with ⟨price, hprice⟩
  rcases floatField_ok lx.chargeTotal 0 h5 with ⟨tot, htot⟩
  unfold parse_single_line
  rw [hrc, except_ok_bind, hdesc, except_ok_bind, hqu, except_ok_bind,
    hprice, except_ok_bind, htot, except_ok_bind]
  exact ⟨_, rfl⟩

theorem foldlM_lines_ok :
    ∀ (lxs : List LineX) (acc : List ParsedLine), lxs.all goodLine = true →
      ∃ pls, (lxs.foldlM (fun acc lx => do
        let pl ← parse_single_line lx
        pure (acc ++ [pl])) acc) = Except.ok pls
  | [], acc, _ => ⟨acc, rfl⟩
  | lx :: rest, acc, h => by
    rw [List.all_cons, Bool.and_eq_true] at h
    rcases parse_single_line_ok lx h.1 with ⟨pl, hstep⟩
    rcases foldlM_lines_ok rest (acc ++ [pl]) h.2 with ⟨pls, hrest⟩
    refine ⟨pls, ?_⟩
    rw [List.foldlM_cons, hstep]
    simpa using hrest

theorem parse_lines_ok (lxs : List LineX) (hne : lxs ≠ [])
    (h : lxs.all goodLine = true) :
    ∃ pls, parse_lines lxs = Except.ok pls := by
  unfold parse_lines
  rw [if_neg hne]
  exact foldlM_lines_ok lxs [] h

theorem get_invoice_id_ok (e : Elem String) (h : elemFound e = true) :
    ∃ s, get_invoice_id e = Except.ok s := by
  match e with
  | .absent => cases h
  | .blank => exact ⟨"UNKNOWN", rfl⟩
  | .text a => exact ⟨a, rfl⟩

/-! ## Helper lemmas about the derived invoiced hours -/

theorem invoice_hours_step (l : ParsedLine) (acc : ℚ) :
    (match l.description with
     | some d =>
       if strIn "heure" (lowerStr d) then
         if l.unit = some "HUR" ∨ l.unit = some "hur" then acc + l.quantity
         else acc
       else acc
     | none => acc) =
      if heureDesc l && hurUnit l then acc + l.quantity else acc := by
  match hdesc : l.description with
  | none =>
    have h1 : heureDesc l = false := by unfold heureDesc; rw [hdesc]
    rw [h1]
    rfl
  | some d =>
    have h1 : heureDesc l = strIn "heure" (lowerStr d) := by
      unfold heureDesc; rw [hdesc]
    rw [h1]
    dsimp only
    by_cases h2 : strIn "heure" (lowerStr d)
    · rw [if_pos h2, h2, Bool.true_and]
      by_cases h3 : l.unit = some "HUR" ∨ l.unit = some "hur"
      · rw [if_pos h3]
        have h4 : hurUnit l = true := by
          unfold hurUnit
          rcases h3 with h | h <;> simp [h]
        rw [h4, if_pos rfl]
      · rw [if_neg h3]
        have h4 : hurUnit l = false := by
          unfold hurUnit
          push_neg at h3
          simp [h3.1, h3.2]
        rw [h4]
        rfl
    · rw [if_neg h2]
      have h2x : strIn "heure" (lowerStr d) = false := by
        simpa using h2
      rw [h2x, Bool.false_and]
      rfl

theorem sumHourMarkedHUR_cons (l : ParsedLine) (rest : List ParsedLine) :
    sumHourMarkedHUR (l :: rest) =
      (if heureDesc l && hurUnit l then l.quantity else 0) +
        sumHourMarkedHUR rest := by
  unfold sumHourMarkedHUR
  rw [List.filter_cons]
  by_cases h : heureDesc l && hurUnit l
  · rw [if_pos h, if_pos h]
    simp
  · rw [if_neg h, if_neg h]
    simp

theorem invoice_hours_aux :
    ∀ (lines : List ParsedLine) (acc : ℚ),
      lines.foldl
        (fun acc l =>
          match l.description with
          | some d =>
            if strIn "heure" (lowerStr d) then
              if l.unit = some "HUR" ∨ l.unit = some "hur" then acc + l.quantity
              else acc
            else acc
          | none => acc) acc = acc + sumHourMarkedHUR lines
  | [], acc => by simp [sumHourMarkedHUR]
  | l :: rest, acc => by
    rw [List.foldl_cons, invoice_hours_step, invoice_hours_aux rest,
      sumHourMarkedHUR_cons]
    by_cases h : heureDesc l && hurUnit l
    · rw [if_pos h, if_pos h]
      ring
    · rw [if_neg h, if_neg h]
      ring


/-! ## Claim theorems -/

/-- C1 (counterexample): for the regular-hours line of `c1data`
(quantity 35, ratio 8/38), the calculator stores `new_quantity = 7`
(nearest integer), not `round(35 * 8/38, 2) = 7.37` as the claim states. -/
theorem C1_counterexample :
    ((calculate_adjustments pdNone c1data).lines.map fun p => p.2.new_quantity) =
      [7] ∧
    roundHalfUp2 ((35 : ℚ) * (calculate_adjustments pdNone c1data).ratio) =
      737/100 ∧
    (7 : ℚ) ≠ 737/100 := by decide

/-- C1 (amended): for every line governed by a ratio rule (regular hours,
13th-month bonus, or the default rule), the calculator sets `new_quantity` to
`old_quantity * ratio` rounded to the NEAREST INTEGER (Python `round`, ties
to even) — not to 2 decimal places — because `_round_quantity`'s 2-decimal
branch tests `'heure' in str(quantity)`, which no numeric quantity satisfies;
the ratio itself obeys the claimed law (`raf_hours / invoice_hours` when
`invoice_hours > 0`, else 1). -/
theorem C1_ratio_rule_rounding (pd : String → Option ℤ) (data : InvoiceData)
    (l : LineItem) (hrule : ratioRulePos (lowerStr l.description)) :
    (line_adjustment pd data (calculate_ratio data) l).new_quantity =
      ((pyRound (l.quantity * calculate_ratio data) : ℤ) : ℚ) ∧
    (calculate_adjustments pd data).ratio =
      (if data.invoice_hours > 0 then data.raf_hours / data.invoice_hours
       else 1) := by
  constructor
  · rw [line_adjustment_ratio pd data _ l hrule]
    rfl
  · rw [calculate_adjustments_def, adjust_cent_ratio]
    rfl

/-- C1 (witness): the amended rounding law evaluated on the concrete
regular-hours line of `c1data`. -/
theorem C1_witness :
    (line_adjustment pdNone c1data (calculate_ratio c1data) c1line).new_quantity =
      ((pyRound (c1line.quantity * calculate_ratio c1data) : ℤ) : ℚ) ∧
    (calculate_adjustments pdNone c1data).ratio =
      (if c1data.invoice_hours > 0 then
        c1data.raf_hours / c1data.invoice_hours
       else 1) :=
  C1_ratio_rule_rounding pdNone c1data c1line
    (Or.inl (show ruleHours (lowerStr c1line.description) = true by decide))

/-- C2 (counterexample): when the hours-mismatch and week-overlap checks both
fire, `detect` reports type `week_overlap` (the later check overwrites the
tag), not `multiple`; and when only the period-consistency check fires, the
type stays `None` rather than `period_issue`. -/
theorem C2_counterexample :
    (detect true true false false).type = some "week_overlap" ∧
    (detect true true false false).type ≠ some "multiple" ∧
    (detect false false false true).has_inconsistency = true ∧
    (detect false false false true).type = none := by decide

/-- C2 (amended): `has_inconsistency` is the disjunction of the four checks;
the type tag is `multiple` only when the amount-mismatch check fires together
with an earlier check (hours mismatch or week overlap); otherwise the tag is
that of the LAST firing check among hours-mismatch / week-overlap /
amount-mismatch, and the period-issue check never sets a tag. -/
theorem C2_detector_type_tag (h w a p : Bool) :
    (detect h w a p).has_inconsistency = (h || w || a || p) ∧
    (detect h w a p).type =
      (if a then (if h || w then some "multiple" else some "amount_mismatch")
       else if w then some "week_overlap"
       else if h then some "hours_mismatch"
       else none) := by
  cases h <;> cases w <;> cases a <;> cases p <;> decide

/-- C3 (counterexample): with two lines sharing one description, the dict
keeps a single entry while `new_total_charges` accumulates both lines, so the
surviving amounts sum to 10 against a stored total of 20. -/
theorem C3_counterexample :
    ¬(|sumAmounts (calculate_adjustments pdNone c3data).lines -
        (calculate_adjustments pdNone c3data).new_total_charges| ≤ 1/100) := by
  decide

/-- C3 (amended): when the input record's line descriptions are pairwise
distinct (so no dict entry is overwritten), the sum of `new_amount` over the
surviving line adjustments equals `new_total_charges` to within 0.01. -/
theorem C3_total_consistency (pd : String → Option ℤ) (data : InvoiceData)
    (hnd : (data.lines.map fun l => l.description).Nodup) :
    |sumAmounts (calculate_adjustments pd data).lines -
      (calculate_adjustments pd data).new_total_charges| ≤ 1/100 := by
  have hsum : (linesLoop pd data (calculate_ratio data) data.lines [] 0).2 =
      sumAmounts (linesLoop pd data (calculate_ratio data) data.lines [] 0).1 :=
    linesLoop_sum pd data (calculate_ratio data) data.lines [] 0
      (by intro l _ p hp; cases hp) hnd (by simp [sumAmounts])
  rw [calculate_adjustments_def]
  rw [adjust_cent_sum data _ hsum]
  simp

/-- C3 (witness): total consistency evaluated on the one-line record
`c1data`. -/
theorem C3_witness :
    |sumAmounts (calculate_adjustments pdNone c1data).lines -
      (calculate_adjustments pdNone c1data).new_total_charges| ≤ 1/100 :=
  C3_total_consistency pdNone c1data (by decide)

/-- C4 (counterexample): in the single-day record `c4data` the overtime line
`heures supplémentaires` receives a `remove` adjustment, yet the fixer does
NOT excise its element: the containment lookup first matches the ratio-scaled
`heures` entry (whose key is a substring of the overtime description), so the
element is updated in place instead. -/
theorem C4_counterexample :
    ((calculate_adjustments pdNone c4data).lines.map fun p =>
      (p.1, p.2.action)) =
      [("heures", "adjust"), ("heures supplémentaires", "remove")] ∧
    fixLineElem (calculate_adjustments pdNone c4data) c4elem ≠ none := by
  decide

/-- C4 (amended): when the target period collapses to a single day, every
line dispatched to the overtime or RTT rule receives an adjustment with
action `remove`, `new_quantity = 0` and `new_amount = 0`; and the fixer
excises a line element PROVIDED the first adjustment matched by the
key-containment lookup for its description is one with action `remove` (an
earlier containment-matching `adjust` entry preempts excision, as the
counterexample shows). -/
theorem C4_single_day_collapse (pd : String → Option ℤ) (data : InvoiceData)
    (hcol : data.period_start = data.period_end) (l : LineItem)
    (hl : l ∈ data.lines)
    (hrule : overtimeRulePos (lowerStr l.description) ∨
             rttRulePos (lowerStr l.description)) :
    (∃ a, (l.description, a) ∈ (calculate_adjustments pd data).lines ∧
       a.action = "remove" ∧ a.new_quantity = 0 ∧ a.new_amount = 0) ∧
    (∀ (e : LineElem) (a : Adjustment), e.description = some l.description →
       findAdj (calculate_adjustments pd data).lines l.description = some a →
       a.action = "remove" →
       fixLineElem (calculate_adjustments pd data) e = none) := by
  constructor
  · rw [calculate_adjustments_def]
    rcases linesLoop_key_of_mem pd data (calculate_ratio data) data.lines [] 0 l
      hl with ⟨a, ha⟩
    rcases linesLoop_mem pd data _ data.lines [] 0 _ ha with h | ⟨l2, hl2, he⟩
    · cases h
    · have hdesc : l.description = l2.description := congrArg Prod.fst he
      have ha2 : a = line_adjustment pd data (calculate_ratio data) l2 :=
        congrArg Prod.snd he
      have hrule2 : overtimeRulePos (lowerStr l2.description) ∨
          rttRulePos (lowerStr l2.description) := hdesc ▸ hrule
      rcases line_adjustment_remove pd data (calculate_ratio data) l2 hcol
        hrule2 with ⟨hact, hqty, hamt⟩
      have hnd0 : (((linesLoop pd data (calculate_ratio data)
          data.lines [] 0).1).map Prod.fst).Nodup :=
        linesLoop_keys_nodup pd data _ data.lines [] 0 (by simp)
      refine ⟨a, adjust_cent_mem_nonpos data _ l.description a hnd0 ha ?_,
        ?_, ?_, ?_⟩
      · rw [ha2, hamt]
        norm_num
      · rw [ha2]; exact hact
      · rw [ha2]; exact hqty
      · rw [ha2]; exact hamt
  · intro e a he hfa hact
    have hd : l.description ≠ "" := by
      intro h0
      rw [h0] at hrule
      rcases hrule with ⟨_, hB⟩ | ⟨_, _, hC⟩
      · exact absurd hB (by decide)
      · exact absurd hC (by decide)
    simp [fixLineElem, he, hfa, hact, hd]

/-- C4 (witness): the collapse law evaluated on `c4wdata`, whose only line is
the overtime line: the adjustment is `remove`/0/0 and the fixer excises the
corresponding element. -/
theorem C4_witness :
    (∃ a, ("Heures Supplémentaires 125%", a) ∈
        (calculate_adjustments pdNone c4wdata).lines ∧
       a.action = "remove" ∧ a.new_quantity = 0 ∧ a.new_amount = 0) ∧
    fixLineElem (calculate_adjustments pdNone c4wdata)
      ⟨some "Heures Supplémentaires 125%", some 1, some 1⟩ = none := by
  have h := C4_single_day_collapse pdNone c4wdata (by decide) c4wline
    (by decide) (Or.inl ⟨by decide, by decide⟩)
  refine ⟨h.1, h.2 ⟨some "Heures Supplémentaires 125%", some 1, some 1⟩
    { old_quantity := 1, old_amount := 1, unit_price := 1,
      action := "remove", new_quantity := 0, new_amount := 0 }
    rfl (by decide) rfl⟩

/-- C5 (counterexample): with a reversed target period (start after end), the
transport line's new quantity is `min((end - start).days + 1, 5) = -1`,
violating the claimed minimum of 1. -/
theorem C5_counterexample :
    (line_adjustment pdJul c5data 1 c5line).new_quantity = -1 ∧
    ¬(1 ≤ (line_adjustment pdJul c5data 1 c5line).new_quantity) := by decide

/-- C5 (amended): for a meal/transport line, when both period endpoints parse
and start ≤ end, the new quantity is 1 on a same-day period and
`min(days_in_range, 5)` otherwise, and is then always at least 1 (the
counterexample shows the bound fails for reversed periods; unparseable dates
fall back to 1 day). -/
theorem C5_allowance_days (pd : String → Option ℤ) (data : InvoiceData)
    (r : ℚ) (l : LineItem)
    (hrule : allowanceRulePos (lowerStr l.description))
    (s e : ℤ) (hs : data.period_start.bind pd = some s)
    (he : data.period_end.bind pd = some e) (hse : s ≤ e) :
    (line_adjustment pd data r l).new_quantity =
      ((if s = e then 1 else min (e - s + 1) 5 : ℤ) : ℚ) ∧
    1 ≤ (line_adjustment pd data r l).new_quantity := by
  have hdays : calculate_days_worked pd data.period_start data.period_end =
      (if s = e then 1 else min (e - s + 1) 5) := by
    unfold calculate_days_worked
    rw [hs, he]
  rw [line_adjustment_days pd data r l hrule, hdays]
  refine ⟨rfl, ?_⟩
  by_cases hq : s = e
  · simp [hq]
  · rw [if_neg hq]
    have h1 : (1:ℤ) ≤ min (e - s + 1) 5 := by
      rw [min_def]
      split <;> omega
    exact_mod_cast h1

/-- C5 (witness): the allowance law evaluated on the forward 3-day period of
`c5wdata` (July 8 to July 10): quantity `min(3, 5) = 3 ≥ 1`. -/
theorem C5_witness :
    (line_adjustment pdJul c5wdata 1 c5line).new_quantity =
      ((if (8:ℤ) = 10 then 1 else min (10 - 8 + 1) 5 : ℤ) : ℚ) ∧
    1 ≤ (line_adjustment pdJul c5wdata 1 c5line).new_quantity :=
  C5_allowance_days pdJul c5wdata 1 c5line
    ⟨by decide, by decide, by decide, by decide, by decide⟩
    8 10 (by decide) (by decide) (by decide)

/-- C6 (counterexample): a line with hours unit code `HUR` but a description
without the hours marker (`Prime exceptionnelle`, quantity 5) is NOT counted
by `_calculate_invoice_hours`, so the derived hours differ from the claimed
sum over all HUR-unit lines. -/
theorem C6_counterexample :
    calculate_invoice_hours [c6line] = 0 ∧ sumHURQuantities [c6line] = 5 ∧
    (0 : ℚ) ≠ 5 := by decide

/-- C6 (amended): the extractor's derived `invoice_hours` equals the sum of
the quantities of the lines whose unit code denotes hours (`HUR`/`hur`) AND
whose description contains the hours marker `heure` (the extra description
condition is what the counterexample exhibits). -/
theorem C6_invoice_hours (lines : List ParsedLine) :
    calculate_invoice_hours lines = sumHourMarkedHUR lines := by
  unfold calculate_invoice_hours
  rw [invoice_hours_aux]
  ring

/-- C7 (counterexample): on `c7data`/`c7pre` the reconciliation condition
holds (difference 1/2, strictly between 0 and 1) yet the pass changes
nothing — no line has a positive amount — contradicting the claim that a run
always changes exactly one line by the difference. -/
theorem C7_counterexample :
    0 < |rafTotal c7data - c7pre.new_total_charges| ∧
    |rafTotal c7data - c7pre.new_total_charges| < 1 ∧
    adjust_cent_difference c7data c7pre = c7pre := by decide

/-- C7 (amended): the cent pass leaves everything unchanged when the
difference is 0 or ≥ 1, and also when it runs but no line has a strictly
positive amount; when it runs and the search finds the first line with the
smallest strictly positive `new_amount`, exactly the entries with that line's
key are shifted by the difference (added when the RAF estimate exceeds the
computed total, else subtracted — `centUpd`), and the three totals are
recomputed from the adjusted amounts. -/
theorem C7_cent_reconciliation (data : InvoiceData) (A : AdjustmentSet) :
    (¬(0 < |rafTotal data - A.new_total_charges| ∧
        |rafTotal data - A.new_total_charges| < 1) →
      adjust_cent_difference data A = A) ∧
    ((0 < |rafTotal data - A.new_total_charges| ∧
        |rafTotal data - A.new_total_charges| < 1) →
      smallestPos A.lines = none →
      adjust_cent_difference data A = A ∧
        ∀ p ∈ A.lines, ¬ 0 < p.2.new_amount) ∧
    ∀ k amt, (0 < |rafTotal data - A.new_total_charges| ∧
        |rafTotal data - A.new_total_charges| < 1) →
      smallestPos A.lines = some (k, amt) →
      (∃ adj, (k, adj) ∈ A.lines ∧ adj.new_amount = amt) ∧ 0 < amt ∧
      (∀ p ∈ A.lines, 0 < p.2.new_amount → amt ≤ p.2.new_amount) ∧
      (adjust_cent_difference data A).lines = centUpd data A k ∧
      (adjust_cent_difference data A).new_total_charges =
        sumAmounts (adjust_cent_difference data A).lines ∧
      (adjust_cent_difference data A).new_total_tax =
        roundHalfUp2 ((adjust_cent_difference data A).new_total_charges *
          vatRate data) ∧
      (adjust_cent_difference data A).new_total_amount =
        (adjust_cent_difference data A).new_total_charges +
          (adjust_cent_difference data A).new_total_tax := by
  refine ⟨adjust_cent_no_run data A, ?_, ?_⟩
  · intro hcond hnone
    exact ⟨adjust_cent_none data A hnone, smallestPos_none A.lines hnone⟩
  · intro k amt hcond hsome
    rcases smallestPos_spec A.lines k amt hsome with ⟨hpos, hexist, hmin⟩
    rw [adjust_cent_some data A k amt hcond hsome]
    exact ⟨hexist, hpos, hmin, rfl, rfl, rfl, rfl⟩

/-- C7 (witness): the runs-but-no-positive-line branch evaluated on
`c7data`/`c7pre`. -/
theorem C7_witness :
    adjust_cent_difference c7data c7pre = c7pre ∧
      ∀ p ∈ c7pre.lines, ¬ 0 < p.2.new_amount :=
  (C7_cent_reconciliation c7data c7pre).2.1 (by decide) (by decide)

/-- C8 (code bug): the fixer overwrites the three header totals, but the
`NbHeuresFacturees` annotation keeps its old text `38.00` although
`target_hours` is 8: the first lookup finds the element and the only branch
that writes to it is the dead fallback taken when nothing was found. -/
theorem C8_header_totals_bug :
    fix_header_totals c8adj c8header =
      { totalCharges := some 100, totalTax := some 20, totalAmount := some 120,
        descriptions := [("NbHeuresFacturees", some "38.00")] } := by decide

/-- C9 (counterexample): on `c9doc` — invoice root present, every guarded
lookup succeeding — a malformed `Duration` text raises `ValueError` via
`float()`; and on a document whose timecards are line-anchored only, the
position detector's `local-name()` fallback raises `SyntaxError`. Both
refute "raises only when no invoice root" and "unmatched element lookups
degrade and never abort". -/
theorem C9_counterexample :
    c9doc.invoice ≠ none ∧
    parse c9doc =
      Except.error "ValueError: could not convert string to float" ∧
    (Doc.mk (some c9lineinv)).invoice ≠ none ∧
    parse ⟨some c9lineinv⟩ =
      Except.error "SyntaxError: invalid predicate" := by
  exact ⟨by decide, rfl, by decide, rfl⟩

/-- C9 (amended): the claim fails in both directions. Every `local-name()`
fallback lookup raises `SyntaxError: invalid predicate` as soon as the
first, namespace-qualified lookup misses, so: a document with no invoice
root raises `SyntaxError` (`_find_invoice`'s own `ValueError` is dead
code); a missing fallback-guarded element (timecard position, period
dates, intervals, `Duration`/`Quantity`, header totals and tax rate,
header descriptions, document id, lines and their five children) aborts
extraction instead of defaulting; and present numeric text that `float()`
rejects raises `ValueError`. Extraction succeeds exactly in the remaining
case: the invoice root is found, every guarded lookup finds its element,
and every truthy numeric text parses — then present-but-blank texts (the
only "missing" data that survives) degrade to the defaults. -/
theorem C9_extractor_errors (doc : Doc) :
    (doc.invoice = none →
      parse doc = Except.error "SyntaxError: invalid predicate") ∧
    (∀ inv, doc.invoice = some inv → goodInvoice inv = true →
      ∃ d, parse doc = Except.ok d) := by
  constructor
  · intro hinv
    unfold parse
    rw [hinv]
    rfl
  · intro inv hinv hg
    unfold goodInvoice at hg
    simp only [Bool.and_eq_true] at hg
    obtain ⟨⟨⟨⟨⟨g1, g2⟩, g3⟩, g4⟩, g5⟩, g6⟩ := hg
    have hne : inv.headerTimecards ≠ [] := by
      intro h0
      rw [h0] at g2
      cases g2
    have hlne : inv.lines ≠ [] := by
      intro h0
      rw [h0] at g5
      cases g5
    unfold parse
    rw [hinv]
    dsimp only
    rw [except_pure_bind]
    rcases get_invoice_id_ok inv.docId g1 with ⟨iid, hiid⟩
    rw [hiid, except_ok_bind]
    have hpos : detect_timecards_position inv = Except.ok (some "header") := by
      unfold detect_timecards_position
      rw [if_pos hne]
    rw [hpos, except_ok_bind]
    rw [if_pos (show (some "header" : Option String) = some "header" from rfl)]
    rcases parse_timecards_ok inv.headerTimecards g3 with ⟨tcd, htcd⟩
    rw [htcd, except_ok_bind]
    rcases parse_lines_ok inv.lines hlne g6 with ⟨pls, hpls⟩
    cases hh : inv.header with
    | some h =>
      rw [hh] at g4
      rcases parse_header_ok h g4 with ⟨hd, hph⟩
      dsimp only
      rw [hph, except_ok_bind, hpls, except_ok_bind]
      exact ⟨_, rfl⟩
    | none =>
      dsimp only
      rw [except_pure_bind, hpls, except_ok_bind]
      exact ⟨_, rfl⟩

/-- C9 (witness): the amended error law evaluated on a rootless document
(which raises the fallback `SyntaxError`) and on the well-formed document
`c9good`. -/
theorem C9_witness :
    parse ⟨none⟩ = Except.error "SyntaxError: invalid predicate" ∧
    ∃ d, parse c9good = Except.ok d :=
  ⟨(C9_extractor_errors ⟨none⟩).1 rfl,
   (C9_extractor_errors c9good).2 c9inv rfl (by decide)⟩

/-- C10: every adjustment the calculator produces has action `adjust` or
`remove`; `remove` occurs only when the target period collapses to one day;
and for a multi-day period every adjustment is `adjust` and every input
line's description is a key of the adjustment plan. -/
theorem C10_action_invariant (pd : String → Option ℤ) (data : InvoiceData) :
    (∀ p ∈ (calculate_adjustments pd data).lines,
       p.2.action = "adjust" ∨ p.2.action = "remove") ∧
    (∀ p ∈ (calculate_adjustments pd data).lines,
       p.2.action = "remove" → data.period_start = data.period_end) ∧
    (data.period_start ≠ data.period_end →
       (∀ p ∈ (calculate_adjustments pd data).lines, p.2.action = "adjust") ∧
       ∀ l ∈ data.lines,
         ∃ a, (l.description, a) ∈ (calculate_adjustments pd data).lines) := by
  have hact : ∀ p ∈ (calculate_adjustments pd data).lines,
      p.2.action = "adjust" ∨
      (p.2.action = "remove" ∧ data.period_start = data.period_end) := by
    intro p hp
    rcases calc_lines_mem pd data p hp with ⟨l, _, _, hpact, _⟩
    rcases line_adjustment_cases pd data (calculate_ratio data) l with
      ha | ⟨ha, hc, _, _⟩
    · left
      rw [hpact]
      exact ha
    · right
      refine ⟨?_, hc⟩
      rw [hpact]
      exact ha
  refine ⟨?_, ?_, ?_⟩
  · intro p hp
    rcases hact p hp with h | ⟨h, _⟩
    · exact Or.inl h
    · exact Or.inr h
  · intro p hp hrm
    rcases hact p hp with h | ⟨_, hc⟩
    · rw [hrm] at h
      exact absurd h (by decide)
    · exact hc
  · intro hne
    constructor
    · intro p hp
      rcases hact p hp with h | ⟨_, hc⟩
      · exact h
      · exact absurd hc hne
    · intro l hl
      exact calc_key pd data l hl

/-- C10 (witness): the invariant evaluated on the multi-day record `c10data`:
the period is multi-day, every action is `adjust`, and the overtime line's
description is a key of the plan. -/
theorem C10_witness :
    c10data.period_start ≠ c10data.period_end ∧
    (∀ p ∈ (calculate_adjustments pdNone c10data).lines,
       p.2.action = "adjust") ∧
    ∃ a, ("Heures Supplémentaires 125%", a) ∈
      (calculate_adjustments pdNone c10data).lines := by
  have h := (C10_action_invariant pdNone c10data).2.2 (by decide)
  exact ⟨by decide, h.1,
    h.2 ⟨"Heures Supplémentaires 125%", 1, "HUR", 1, 1⟩ (by decide)⟩

end Pixid
